import Mathlib

/-!
# Lift system motor controller (`src/main.cpp`)

A shallow embedding of the firmware's controller: the global variables become
one record `Controller`, every function of `main.cpp` that touches them becomes
a function on that record, and the values the firmware reads from its
environment (the millisecond clock, the button pins, the pending datagram) are
explicit arguments.

Conventions.

* `int` is a 32-bit two's-complement integer and `unsigned long` (the type of
  `millis()`) a 32-bit unsigned integer, as on the ESP32.  Values are `Int`
  or `Nat`; `toI32` and `toU32` are the conversions the C code performs.
* A clock reading is a `Nat`; the firmware only ever sees readings below
  `2 ^ 32`.
* `buffer` holds the C string stored in the array `buffer`: the bytes before
  the first NUL.  Nothing in the program reads a byte behind that NUL.
* `in1`, `in2`, `duty` are the levels last written to the pins `IN1`, `IN2`
  and to the PWM channel; `digitalRead` of a direction pin returns the level
  last written to it.
* `sent` lists the datagrams handed to `sendResponse`, oldest first.
* Console logging (`Serial.printf`) and the drawing calls of `redraw` have no
  effect on the controller and are left out.
-/

namespace LiftSystem

/-! ## Machine integers -/

/-- Conversion of an integer value to `unsigned long` (32 bits). -/
def toU32 (x : Int) : Int := x % 4294967296

/-- Conversion of an integer value to `int` (32 bits, two's complement). -/
def toI32 (x : Int) : Int := (x + 2147483648) % 4294967296 - 2147483648

/-! ## C library functions used by the firmware -/

/-- C `isspace` in the "C" locale. -/
def isspace (ch : Char) : Bool :=
  ch.toNat = 32 || (9 ≤ ch.toNat && ch.toNat ≤ 13)

/-- C `isdigit`. -/
def isdigit (ch : Char) : Bool :=
  48 ≤ ch.toNat && ch.toNat ≤ 57

/-- Value of a run of decimal digits, most significant first. -/
def digitsValue (ds : List Char) : Nat :=
  ds.foldl (fun acc d => 10 * acc + (d.toNat - 48)) 0

/-- C `atoi` (newlib: `(int) strtol (s, NULL, 10)`): skip white space, read an
optional sign, then the longest run of decimal digits; no digits give 0 and a
value outside `int` saturates. -/
def atoi (s : List Char) : Int :=
  let s1 := s.dropWhile isspace
  let s2 := if s1.head? = some '-' ∨ s1.head? = some '+' then s1.drop 1 else s1
  let n : Int := digitsValue (s2.takeWhile isdigit)
  if s1.head? = some '-' then (if n > 2147483648 then -2147483648 else -n)
  else (if n > 2147483647 then 2147483647 else n)

/-- One call of C `strtok` with the delimiter set `" "`, on the C string the
scan starts at: `none` when only delimiters are left, otherwise the token and
the string the next call `strtok(NULL, " ")` starts at. -/
def strtok (s : List Char) : Option (List Char × List Char) :=
  let s1 := s.dropWhile (fun ch => ch == ' ')
  if s1.isEmpty then none
  else some (s1.takeWhile (fun ch => ch != ' '), (s1.dropWhile (fun ch => ch != ' ')).drop 1)

/-- Text printed by the conversion `%i`. -/
def fmtInt (v : Int) : List Char :=
  if v < 0 then '-' :: Nat.toDigits 10 v.natAbs else Nat.toDigits 10 v.natAbs

/-! ## Controller state -/

/-- Size of the array `buffer` (`#define MAX_UDP_SIZE 65536`). -/
def MAX_UDP_SIZE : Nat := 65536

/-- A datagram: peer address, peer port and payload bytes.  A datagram the
firmware can receive carries at most `MAX_UDP_PAYLOAD` payload bytes. -/
structure Datagram where
  ip : Nat
  port : Nat
  payload : List Char
deriving DecidableEq, Repr

/-- The global variables of `main.cpp` together with the output pins and the
datagrams sent so far. -/
structure Controller where
  timeout_ms : Int
  timeout : Int
  display_speed : Int
  display_redraw : Int
  remoteIP : Nat
  remotePort : Nat
  buffer : List Char
  in1 : Bool
  in2 : Bool
  duty : Nat
  sent : List Datagram
deriving DecidableEq, Repr

/-- `snprintf(buffer, MAX_UDP_SIZE, ...)` producing `text`: stores at most
`MAX_UDP_SIZE - 1` characters and returns the full length of `text`. -/
def snprintf (text : List Char) (c : Controller) : Nat × Controller :=
  (text.length, { c with buffer := text.take (MAX_UDP_SIZE - 1) })

/-- `sendResponse(payload_len)`: one datagram with the first `payload_len`
bytes of `buffer` goes to the remembered sender. -/
def sendResponse (payload_len : Nat) (c : Controller) : Controller :=
  { c with sent := c.sent ++ [⟨c.remoteIP, c.remotePort, c.buffer.take payload_len⟩] }

/-- `setTimeout(new_timeout_ms)`. -/
def setTimeout (new_timeout_ms : Int) (c : Controller) : Controller :=
  let c1 := { c with timeout_ms := new_timeout_ms }
  let r := snprintf ("timeout ".toList ++ fmtInt new_timeout_ms ++ ['\n']) c1
  sendResponse r.1 r.2

/-- The cut-off at the head of `setSpeed` (lines 70-73): the value `speed` has
after the two tests. -/
def clampSpeed (speed : Int) : Int :=
  let speed := if speed > 255 then 255 else speed
  if speed < -255 then -255 else speed

/-- `setSpeed(speed, timeout_ms)` up to and including `digitalWrite(IN1, ...)`
(lines 70-88), with `millis()` returning `now`: the variables are stored, the
PWM duty and `IN1` are written, `IN2` still has the level it had before the
call.  These are the pin levels between the two direction writes. -/
def setSpeedToIN1 (speed : Int) (timeout_ms : Int) (now : Nat) (c : Controller) : Controller :=
  let speed := clampSpeed speed
  let c1 := { c with
    display_speed := speed
    timeout := toI32 (toU32 ((now : Int) + toU32 timeout_ms)) }
  let c2 := { c1 with duty := if speed = 0 then 255 else speed.natAbs }
  { c2 with in1 := decide (speed < 0) }

/-- `setSpeed(speed, timeout_ms)` with `millis()` returning `now`: after the
steps of `setSpeedToIN1` it writes `IN2` (line 89) and, if the speed changed,
sends the confirmation (lines 92-95). -/
def setSpeed (speed : Int) (timeout_ms : Int) (now : Nat) (c : Controller) : Controller :=
  let send_response := decide (c.display_speed ≠ clampSpeed speed)
  let c3 := setSpeedToIN1 speed timeout_ms now c
  let c4 := { c3 with in2 := decide (clampSpeed speed > 0) }
  if send_response then
    let r := snprintf ("speed ".toList ++ fmtInt (clampSpeed speed) ++ ['\n']) c4
    sendResponse r.1 r.2
  else c4

/-- `parsePacket()` with `millis()` returning `now`: the command is the C
string in `buffer`.  The first `strtok` call ends the first token with a NUL,
which cuts the C string in `buffer` after that token. -/
def parsePacket (now : Nat) (c : Controller) : Controller :=
  match strtok c.buffer with
  | none => c
  | some (cmd, rest) =>
    let c1 := { c with buffer := c.buffer.takeWhile (fun ch => ch == ' ') ++ cmd }
    let arg1 := (strtok rest).map Prod.fst
    if cmd = "speed".toList then
      match arg1 with
      | none => c1
      | some a => setSpeed (atoi a) c1.timeout_ms now c1
    else if cmd = "timeout".toList then
      match arg1 with
      | none => c1
      | some a => setTimeout (atoi a) c1
    else c1

/-- The value `udp.read(buffer, MAX_UDP_SIZE)` returns for the datagram `d`:
the number of bytes copied into `buffer`, at most `MAX_UDP_SIZE`.  It is
`payload_len`, the index of the NUL that `buffer[payload_len] = 0` writes. -/
def udpRead (d : Datagram) : Nat := min d.payload.length MAX_UDP_SIZE

/-- What `handlePacket` does when control returns to `loop`. -/
structure PacketResult where
  received : Bool
  state : Controller
deriving DecidableEq, Repr

/-- `handlePacket()`: `pending` is the datagram `udp.parsePacket()` finds (none,
or one of size 0, makes `packetSize` zero), `errno5` tells whether `errno == 5`
afterwards.  `none` is `ESP.restart()`, which does not return.  `udp.read`
copies `udpRead d` bytes and the NUL written behind them ends the C string. -/
def handlePacket (pending : Option Datagram) (errno5 : Bool) (now : Nat) (c : Controller) :
    Option PacketResult :=
  if errno5 then none
  else
    match pending with
    | none => some ⟨false, c⟩
    | some d =>
      if d.payload.length = 0 then some ⟨false, c⟩
      else
        let c1 := { c with remoteIP := d.ip, remotePort := d.port }
        let payload_len := udpRead d
        let c2 := { c1 with buffer := (d.payload.take payload_len).takeWhile (fun ch => ch != '\x00') }
        some ⟨true, parsePacket now c2⟩

/-- Levels returned by the `digitalRead` calls of `handleButtons`, in program
order: `BUTTON_UP`, `BUTTON_DOWN` (first test), `BUTTON_UP` (second test),
`BUTTON_DOWN` (third test). -/
structure ButtonReads where
  up1 : Bool
  down1 : Bool
  up2 : Bool
  down2 : Bool

/-- Buttons that keep their level during one call of `handleButtons`. -/
def steady (up down : Bool) : ButtonReads := ⟨up, down, up, down⟩

/-- `handleButtons()` with `millis()` returning `now`: the returned flag and
the new state. -/
def handleButtons (b : ButtonReads) (now : Nat) (c : Controller) : Bool × Controller :=
  if b.up1 && b.down1 then (true, setSpeed 0 10 now c)
  else if b.up2 then (true, setSpeed 255 10 now c)
  else if b.down2 then (true, setSpeed (-255) 10 now c)
  else (false, c)

/-- `redraw()` with its last `millis()` call returning `now`. -/
def redraw (now : Nat) (c : Controller) : Controller :=
  { c with display_redraw := toI32 (toU32 ((now : Int) + toU32 100)) }

/-- The timeout test of `loop` (lines 269-272): `nowCheck` is the clock read
by the comparison, `nowStop` the clock read inside `setSpeed(0, 0)`. -/
def tickSafety (nowCheck nowStop : Nat) (c : Controller) : Controller :=
  if toU32 c.timeout < (nowCheck : Int) ∧ (c.in1 || c.in2) = true then setSpeed 0 0 nowStop c
  else c

/-- Everything one pass of `loop` reads from its environment. -/
structure CycleInput where
  buttons : ButtonReads
  pending : Option Datagram
  errno5 : Bool
  nowCmd : Nat
  nowCheck : Nat
  nowStop : Nat
  nowDraw : Nat
  nowRedraw : Nat

/-- One pass of `loop()`; `none` is a restart. -/
def loop (i : CycleInput) (c : Controller) : Option Controller :=
  let hb := handleButtons i.buttons i.nowCmd c
  let afterNet : Option Controller :=
    if hb.1 then some hb.2
    else (handlePacket i.pending i.errno5 i.nowCmd hb.2).map PacketResult.state
  afterNet.map fun c1 =>
    let c2 := tickSafety i.nowCheck i.nowStop c1
    if toU32 c2.display_redraw < (i.nowDraw : Int) then redraw i.nowRedraw c2 else c2

/-- The variables as initialised at program start, all outputs low. -/
def powerOn : Controller :=
  { timeout_ms := 500, timeout := 0, display_speed := 0, display_redraw := 0,
    remoteIP := 0, remotePort := 0, buffer := [], in1 := false, in2 := false,
    duty := 0, sent := [] }

/-- `setup()` when the UDP server starts: the first `redraw` at clock
`nowRedraw`, then the initial brake `setSpeed(0, timeout_ms)` at clock `now`. -/
def setup (nowRedraw now : Nat) : Controller :=
  let c := redraw nowRedraw powerOn
  setSpeed 0 c.timeout_ms now c

/-- States the controller can be in at the start of a pass of `loop`. -/
inductive Reachable : Controller → Prop
  | start (nowRedraw now : Nat) : Reachable (setup nowRedraw now)
  | cycle (i : CycleInput) (c c' : Controller) :
      Reachable c → loop i c = some c' → Reachable c'

/-! ## Protocol lines and scenarios -/

/-- The line `speed <v>`, newline included: a speed command and the text of a
speed confirmation (`"speed %i\n"`). -/
def speedLine (v : Int) : List Char := "speed ".toList ++ fmtInt v ++ ['\n']

/-- The line `timeout <v>`, newline included: a timeout command and the text
of a timeout confirmation (`"timeout %i\n"`). -/
def timeoutLine (v : Int) : List Char := "timeout ".toList ++ fmtInt v ++ ['\n']

/-- A pass of `loop` with both buttons low in which the datagram `d` is pending
and every clock read returns `now`. -/
def packetCycle (d : Datagram) (now : Nat) : CycleInput :=
  { buttons := steady false false, pending := some d, errno5 := false,
    nowCmd := now, nowCheck := now, nowStop := now, nowDraw := now, nowRedraw := now }

/-- Two passes of `loop` after `setup`: `timeout -1000` arrives at clock 1 and
`speed 100` at clock 5, both from `192.168.3.1:4000`. -/
def negativeTimeoutRun : Option Controller :=
  (loop (packetCycle ⟨3232236289, 4000, "timeout -1000\n".toList⟩ 1) (setup 0 0)).bind
    (loop (packetCycle ⟨3232236289, 4000, "speed 100\n".toList⟩ 5))

/-- The state `negativeTimeoutRun` ends in: the motor runs forward and the
variable `timeout` holds `5 - 1000`. -/
def negativeDeadlineState : Controller :=
  { timeout_ms := -1000, timeout := -995, display_speed := 100, display_redraw := 100,
    remoteIP := 3232236289, remotePort := 4000, buffer := "speed 100\n".toList,
    in1 := false, in2 := true, duty := 100,
    sent := [⟨3232236289, 4000, "timeout -1000\n".toList⟩,
             ⟨3232236289, 4000, "speed 100\n".toList⟩] }

/-- The motor side of the state: stored speed, `IN1`, `IN2` and PWM duty. -/
def outputs (c : Controller) : Int × Bool × Bool × Nat :=
  (c.display_speed, c.in1, c.in2, c.duty)

/-- What `setSpeed` stores and writes for the clamped speed `k` (lines 78-89). -/
def outputsFor (k : Int) : Int × Bool × Bool × Nat :=
  (k, decide (k < 0), decide (k > 0), if k = 0 then 255 else k.natAbs)

/-- Payloads the protocol rejects: no token at all, a verb `speed` or `timeout`
with no argument token, or a first token that is neither verb.  Tokens are
maximal blank-free words. -/
inductive Malformed : List Char → Prop
  | noToken (sp : List Char) : (∀ ch ∈ sp, ch = ' ') → Malformed sp
  | noArgument (sp verb sp2 : List Char) :
      (∀ ch ∈ sp, ch = ' ') → (verb = "speed".toList ∨ verb = "timeout".toList) →
      (∀ ch ∈ sp2, ch = ' ') → Malformed (sp ++ verb ++ sp2)
  | unknownVerb (sp tok tail : List Char) :
      (∀ ch ∈ sp, ch = ' ') → tok ≠ [] → (∀ ch ∈ tok, ch ≠ ' ') →
      (tail = [] ∨ ∃ r, tail = ' ' :: r) →
      tok ≠ "speed".toList → tok ≠ "timeout".toList → Malformed (sp ++ tok ++ tail)

/-- The two states agree on speed, configured timeout, deadline, direction
outputs, PWM duty, remembered sender and datagrams sent. -/
def SameControl (a b : Controller) : Prop :=
  a.display_speed = b.display_speed ∧ a.timeout_ms = b.timeout_ms ∧ a.timeout = b.timeout ∧
  a.in1 = b.in1 ∧ a.in2 = b.in2 ∧ a.duty = b.duty ∧
  a.remoteIP = b.remoteIP ∧ a.remotePort = b.remotePort ∧ a.sent = b.sent

/-- A string without its optional leading sign. -/
def dropSign (s : List Char) : List Char :=
  if s.head? = some '-' ∨ s.head? = some '+' then s.drop 1 else s

/-- An argument token with no leading integer: after an optional sign its first
character, if it has one, is not a decimal digit. -/
def NoLeadingInteger (tok : List Char) : Prop :=
  ∀ d, (dropSign tok).head? = some d → isdigit d = false

/-- The integer written as an optional sign `sgn` and the digit run `ds`. -/
def signedValue (sgn ds : List Char) : Int :=
  if sgn = ['-'] then -(digitsValue ds : Int) else (digitsValue ds : Int)

/-- The status refresh at the end of `loop` (lines 274-276). -/
def refresh (nowDraw nowRedraw : Nat) (c : Controller) : Controller :=
  if toU32 c.display_redraw < (nowDraw : Int) then redraw nowRedraw c else c

/-- A pass of `loop` with only the up button high, a datagram `speed 200` from
`192.168.3.1:4000` pending, the button's `setSpeed` reading the clock `nowCmd`
and everything after it the clock `nowLater`. -/
def upButtonCycle (nowCmd nowLater : Nat) : CycleInput :=
  { buttons := steady true false,
    pending := some ⟨3232236289, 4000, "speed 200\n".toList⟩, errno5 := false,
    nowCmd := nowCmd, nowCheck := nowLater, nowStop := nowLater, nowDraw := nowLater,
    nowRedraw := nowLater }

/-- A pass of `loop` at clock 100 in which the up button reads high at the
first test of `handleButtons` and low at the second, the down button reads
low, and a datagram `speed 200` from `10.0.0.1:5000` is pending. -/
def bouncingButtonCycle : CycleInput :=
  { buttons := ⟨true, false, false, false⟩,
    pending := some ⟨167772161, 5000, "speed 200\n".toList⟩, errno5 := false,
    nowCmd := 100, nowCheck := 100, nowStop := 100, nowDraw := 100, nowRedraw := 100 }

/-- The C string `handlePacket` leaves in `buffer` for the datagram `d`: the
bytes `udp.read` copied, up to the first NUL. -/
def receivedText (d : Datagram) : List Char :=
  (d.payload.take (udpRead d)).takeWhile (fun ch => ch != '\x00')

/-- The argument token of the `timeout` command in the C string `buf`, when
`buf` is one: its first token is `timeout` and it has a second token. -/
def timeoutArgument (buf : List Char) : Option (List Char) :=
  match strtok buf with
  | none => none
  | some (cmd, rest) => if cmd = "timeout".toList then (strtok rest).map Prod.fst else none

/-- States reached from `setup` by single calls: `setSpeed`, `setTimeout`,
`parsePacket` on any buffer content, `handleButtons`, the safety check, or a
whole pass of `loop`. -/
inductive ReachableBySteps : Controller → Prop
  | start (nowRedraw now : Nat) : ReachableBySteps (setup nowRedraw now)
  | speed (s t : Int) (now : Nat) (c : Controller) :
      ReachableBySteps c → ReachableBySteps (setSpeed s t now c)
  | window (v : Int) (c : Controller) :
      ReachableBySteps c → ReachableBySteps (setTimeout v c)
  | parse (buf : List Char) (now : Nat) (c : Controller) :
      ReachableBySteps c → ReachableBySteps (parsePacket now { c with buffer := buf })
  | buttons (b : ButtonReads) (now : Nat) (c : Controller) :
      ReachableBySteps c → ReachableBySteps (handleButtons b now c).2
  | safety (n nStop : Nat) (c : Controller) :
      ReachableBySteps c → ReachableBySteps (tickSafety n nStop c)
  | cycle (i : CycleInput) (c c' : Controller) :
      ReachableBySteps c → loop i c = some c' → ReachableBySteps c'

/-- The state after `setup` and one pass of `loop` at clock 100 with only the
up button high: the motor runs forward at full speed. -/
def forwardState : Controller :=
  { timeout_ms := 500, timeout := 110, display_speed := 255, display_redraw := 100,
    remoteIP := 0, remotePort := 0, buffer := "speed 255\n".toList,
    in1 := false, in2 := true, duty := 255,
    sent := [⟨0, 0, "speed 255\n".toList⟩] }

/-! ## Basic facts about `setSpeed` -/

theorem clampSpeed_bounds (s : Int) : -255 ≤ clampSpeed s ∧ clampSpeed s ≤ 255 := by
  simp only [clampSpeed]
  constructor <;> split_ifs <;> omega

theorem clampSpeed_of_range (s : Int) (h1 : -255 ≤ s) (h2 : s ≤ 255) : clampSpeed s = s := by
  simp only [clampSpeed]
  split_ifs <;> omega

theorem setSpeed_display_speed (s t : Int) (now : Nat) (c : Controller) :
    (setSpeed s t now c).display_speed = clampSpeed s := by
  unfold setSpeed
  simp only []
  split <;> rfl

theorem setSpeed_in1 (s t : Int) (now : Nat) (c : Controller) :
    (setSpeed s t now c).in1 = decide (clampSpeed s < 0) := by
  unfold setSpeed
  simp only []
  split <;> rfl

theorem setSpeed_in2 (s t : Int) (now : Nat) (c : Controller) :
    (setSpeed s t now c).in2 = decide (clampSpeed s > 0) := by
  unfold setSpeed
  simp only []
  split <;> rfl

theorem setSpeed_duty (s t : Int) (now : Nat) (c : Controller) :
    (setSpeed s t now c).duty = if clampSpeed s = 0 then 255 else (clampSpeed s).natAbs := by
  unfold setSpeed
  simp only []
  split <;> rfl

theorem setSpeed_timeout (s t : Int) (now : Nat) (c : Controller) :
    (setSpeed s t now c).timeout = toI32 (toU32 ((now : Int) + toU32 t)) := by
  unfold setSpeed
  simp only []
  split <;> rfl

theorem setSpeed_timeout_ms (s t : Int) (now : Nat) (c : Controller) :
    (setSpeed s t now c).timeout_ms = c.timeout_ms := by
  unfold setSpeed
  simp only []
  split <;> rfl

theorem setSpeed_remote (s t : Int) (now : Nat) (c : Controller) :
    (setSpeed s t now c).remoteIP = c.remoteIP ∧ (setSpeed s t now c).remotePort = c.remotePort := by
  unfold setSpeed
  simp only []
  split <;> exact ⟨rfl, rfl⟩

theorem clampSpeed_ne_zero (s : Int) (h : s ≠ 0) : clampSpeed s ≠ 0 := by
  simp only [clampSpeed]
  split_ifs <;> omega

theorem clampSpeed_idem (s : Int) : clampSpeed (clampSpeed s) = clampSpeed s :=
  clampSpeed_of_range _ (clampSpeed_bounds s).1 (clampSpeed_bounds s).2

theorem clampSpeed_eq_max_min (s : Int) : clampSpeed s = max (-255) (min s 255) := by
  simp only [clampSpeed]
  split_ifs <;> omega

/-! ## Machine arithmetic of the deadline -/

theorem toU32_toI32 (x : Int) : toU32 (toI32 x) = toU32 x := by
  unfold toU32 toI32
  omega

theorem toI32_toU32_add (a b : Int) : toI32 (toU32 (a + toU32 b)) = toI32 (a + b) := by
  unfold toU32 toI32
  omega

theorem toU32_of_range (x : Int) (h0 : 0 ≤ x) (h1 : x < 4294967296) : toU32 x = x := by
  unfold toU32
  omega

theorem toI32_of_range (x : Int) (h0 : -2147483648 ≤ x) (h1 : x < 2147483648) : toI32 x = x := by
  unfold toI32
  omega

/-- The deadline `setSpeed` stores, as the safety check reads it. -/
theorem setSpeed_deadline (s t : Int) (now : Nat) (c : Controller) :
    toU32 (setSpeed s t now c).timeout = ((now : Int) + t) % 4294967296 := by
  rw [setSpeed_timeout]
  unfold toU32 toI32
  omega

/-! ## Formatting and sending -/

theorem fmtInt_length_le (v : Int) (e : Nat) (he : 0 < e) (hv : v.natAbs < 10 ^ e) :
    (fmtInt v).length ≤ e + 1 := by
  have h := Nat.toDigitsCore_length 10 (by norm_num) (v.natAbs + 1) v.natAbs e hv he
  unfold fmtInt Nat.toDigits
  split_ifs
  · simp only [List.length_cons]
    omega
  · omega

theorem snprintf_sendResponse (text : List Char) (c : Controller)
    (h : text.length ≤ MAX_UDP_SIZE - 1) :
    sendResponse (snprintf text c).1 (snprintf text c).2 =
      { c with buffer := text, sent := c.sent ++ [⟨c.remoteIP, c.remotePort, text⟩] } := by
  simp only [sendResponse, snprintf, List.take_of_length_le h, List.take_length]

theorem speedReply_length (k : Int) (h1 : -255 ≤ k) (h2 : k ≤ 255) :
    ("speed ".toList ++ fmtInt k ++ ['\n']).length ≤ MAX_UDP_SIZE - 1 := by
  have h := fmtInt_length_le k 3 (by norm_num) (by omega)
  have h6 : "speed ".toList.length = 6 := by decide
  simp only [List.length_append, List.length_singleton, MAX_UDP_SIZE, h6]
  omega

theorem setSpeed_sent (s t : Int) (now : Nat) (c : Controller) :
    (setSpeed s t now c).sent =
      if c.display_speed = clampSpeed s then c.sent
      else c.sent ++ [⟨c.remoteIP, c.remotePort, "speed ".toList ++ fmtInt (clampSpeed s) ++ ['\n']⟩] := by
  have hs : (setSpeedToIN1 s t now c).sent = c.sent := rfl
  have hip : (setSpeedToIN1 s t now c).remoteIP = c.remoteIP := rfl
  have hport : (setSpeedToIN1 s t now c).remotePort = c.remotePort := rfl
  unfold setSpeed
  simp only []
  by_cases h : c.display_speed = clampSpeed s
  · simp [h, hs]
  · rw [snprintf_sendResponse _ _
      (speedReply_length _ (clampSpeed_bounds s).1 (clampSpeed_bounds s).2)]
    simp [h, hs, hip, hport]

/-! ## Decimal text and `atoi` -/

theorem digitChar_toNat (k : Nat) (h : k < 10) : (Nat.digitChar k).toNat = 48 + k := by
  interval_cases k <;> rfl

theorem toDigitsCore_append (fuel : Nat) :
    ∀ (n : Nat) (acc : List Char),
      Nat.toDigitsCore 10 fuel n acc = Nat.toDigitsCore 10 fuel n [] ++ acc := by
  induction fuel with
  | zero => intro n acc; rfl
  | succ fuel ih =>
    intro n acc
    simp only [Nat.toDigitsCore]
    split_ifs
    · rfl
    · rw [ih (n / 10) (Nat.digitChar (n % 10) :: acc), ih (n / 10) [Nat.digitChar (n % 10)]]
      simp only [List.append_assoc, List.singleton_append]

theorem digitsValue_append_singleton (ds : List Char) (d : Char) :
    digitsValue (ds ++ [d]) = 10 * digitsValue ds + (d.toNat - 48) := by
  unfold digitsValue
  rw [List.foldl_append]
  rfl

/-- The decimal text of `n`: a non-empty run of digits whose value is `n`. -/
theorem toDigitsCore_spec (fuel : Nat) :
    ∀ n : Nat, n < fuel →
      digitsValue (Nat.toDigitsCore 10 fuel n []) = n ∧
      (∀ ch ∈ Nat.toDigitsCore 10 fuel n [], isdigit ch = true) ∧
      Nat.toDigitsCore 10 fuel n [] ≠ [] := by
  induction fuel with
  | zero => intro n h; omega
  | succ fuel ih =>
    intro n hn
    have hd := digitChar_toNat (n % 10) (Nat.mod_lt n (by norm_num))
    have hdig : isdigit (Nat.digitChar (n % 10)) = true := by
      unfold isdigit
      simp only [Bool.and_eq_true, decide_eq_true_eq]
      omega
    simp only [Nat.toDigitsCore]
    split_ifs with hz
    · refine ⟨?_, ?_, by simp⟩
      · unfold digitsValue
        simp only [List.foldl_cons, List.foldl_nil]
        omega
      · intro ch hch
        simp only [List.mem_singleton] at hch
        rw [hch]
        exact hdig
    · have hlt : n / 10 < fuel := by omega
      obtain ⟨hv, hall, hne⟩ := ih (n / 10) hlt
      rw [toDigitsCore_append fuel (n / 10) [Nat.digitChar (n % 10)]]
      refine ⟨?_, ?_, by simp [hne]⟩
      · rw [digitsValue_append_singleton, hv]
        omega
      · intro ch hch
        simp only [List.mem_append, List.mem_singleton] at hch
        rcases hch with h | h
        · exact hall ch h
        · rw [h]
          exact hdig

theorem toDigits_value (n : Nat) : digitsValue (Nat.toDigits 10 n) = n :=
  (toDigitsCore_spec (n + 1) n (Nat.lt_succ_self n)).1

theorem toDigits_isdigit (n : Nat) : ∀ ch ∈ Nat.toDigits 10 n, isdigit ch = true :=
  (toDigitsCore_spec (n + 1) n (Nat.lt_succ_self n)).2.1

theorem toDigits_ne_nil (n : Nat) : Nat.toDigits 10 n ≠ [] :=
  (toDigitsCore_spec (n + 1) n (Nat.lt_succ_self n)).2.2

theorem isdigit_not_isspace (ch : Char) (h : isdigit ch = true) : isspace ch = false := by
  unfold isdigit at h
  unfold isspace
  simp only [Bool.and_eq_true, decide_eq_true_eq] at h
  simp only [Bool.or_eq_false_iff, decide_eq_false_iff_not, Bool.and_eq_false_imp,
    decide_eq_true_eq]
  omega

theorem isdigit_ne (ch d : Char) (h : isdigit ch = true) (hd : isdigit d = false) : ch ≠ d := by
  intro e
  rw [e, hd] at h
  exact absurd h (by decide)

/-- On text that starts with a digit run `ds` followed by a line feed, `atoi`
reads the value of the run. -/
theorem atoi_digits (ds : List Char) (hne : ds ≠ []) (hall : ∀ ch ∈ ds, isdigit ch = true)
    (hmax : digitsValue ds ≤ 2147483647) :
    atoi (ds ++ ['\n']) = (digitsValue ds : Int) := by
  obtain ⟨d, tl, rfl⟩ := List.exists_cons_of_ne_nil hne
  have hd : isdigit d = true := hall d (List.mem_cons_self d tl)
  have hsp : isspace d = false := isdigit_not_isspace d hd
  have hminus : d ≠ '-' := isdigit_ne d '-' hd (by decide)
  have hplus : d ≠ '+' := isdigit_ne d '+' hd (by decide)
  have htake : List.takeWhile isdigit (d :: tl ++ ['\n']) = d :: tl := by
    rw [List.takeWhile_append_of_pos hall]
    simp only [List.append_right_eq_self]
    rfl
  unfold atoi
  simp only [List.cons_append, List.dropWhile_cons, hsp, Bool.false_eq_true, if_false,
    List.head?_cons, Option.some.injEq, hminus, hplus, or_self]
  rw [← List.cons_append, htake]
  simp only [gt_iff_lt]
  rw [if_neg (by omega)]

theorem atoi_minus_digits (ds : List Char) (hall : ∀ ch ∈ ds, isdigit ch = true)
    (hmax : digitsValue ds ≤ 2147483648) :
    atoi ('-' :: ds ++ ['\n']) = -(digitsValue ds : Int) := by
  have htake : List.takeWhile isdigit (ds ++ ['\n']) = ds := by
    rw [List.takeWhile_append_of_pos hall]
    simp only [List.append_right_eq_self]
    rfl
  have hsp : isspace '-' = false := by decide
  unfold atoi
  simp only [List.cons_append, List.dropWhile_cons, hsp, Bool.false_eq_true, if_false,
    List.head?_cons, true_or, if_true, List.drop_succ_cons, List.drop_zero]
  rw [htake]
  simp only [gt_iff_lt]
  rw [if_neg (by omega)]

/-- Round trip of `%i` and `atoi` on every `int` value. -/
theorem atoi_fmtInt (v : Int) (h0 : -2147483648 ≤ v) (h1 : v ≤ 2147483647) :
    atoi (fmtInt v ++ ['\n']) = v := by
  unfold fmtInt
  split_ifs with hneg
  · rw [atoi_minus_digits _ (toDigits_isdigit _)
      (by rw [toDigits_value]; omega), toDigits_value]
    omega
  · rw [atoi_digits _ (toDigits_ne_nil _) (toDigits_isdigit _)
      (by rw [toDigits_value]; omega), toDigits_value]
    omega

theorem fmtInt_chars (v : Int) : ∀ ch ∈ fmtInt v, isdigit ch = true ∨ ch = '-' := by
  intro ch hch
  unfold fmtInt at hch
  split_ifs at hch
  · simp only [List.mem_cons] at hch
    rcases hch with h | h
    · exact Or.inr h
    · exact Or.inl (toDigits_isdigit _ ch h)
  · exact Or.inl (toDigits_isdigit _ ch hch)

theorem fmtInt_ne_nil (v : Int) : fmtInt v ≠ [] := by
  unfold fmtInt
  split_ifs
  · simp
  · exact toDigits_ne_nil _

theorem fmtInt_no_blank (v : Int) : ∀ ch ∈ fmtInt v ++ ['\n'], ch ≠ ' ' ∧ ch ≠ '\x00' := by
  intro ch hch
  simp only [List.mem_append, List.mem_singleton] at hch
  rcases hch with h | h
  · rcases fmtInt_chars v ch h with hd | hm
    · exact ⟨isdigit_ne ch ' ' hd (by decide), isdigit_ne ch '\x00' hd (by decide)⟩
    · rw [hm]
      decide
  · rw [h]
    decide

/-- Without a digit after the white space and the optional sign `atoi`
returns 0. -/
theorem atoi_of_noLeadingInteger (s : List Char)
    (h : NoLeadingInteger (s.dropWhile isspace)) : atoi s = 0 := by
  have htw : List.takeWhile isdigit (dropSign (s.dropWhile isspace)) = [] := by
    cases hd : dropSign (s.dropWhile isspace) with
    | nil => rfl
    | cons d r =>
      have := h d (by rw [hd]; rfl)
      rw [List.takeWhile_cons_of_neg (by rw [this]; decide)]
  have hval : digitsValue [] = 0 := rfl
  unfold atoi
  unfold dropSign at htw
  simp only [htw, hval]
  split_ifs <;> omega

/-- The value of `atoi` is an `int`. -/
theorem atoi_range (s : List Char) : -2147483648 ≤ atoi s ∧ atoi s ≤ 2147483647 := by
  unfold atoi
  simp only []
  split_ifs <;> omega

/-- On optional white space, an optional sign, a non-empty digit run and then
nothing or a character that is not a digit, `atoi` returns the integer
written, saturated to `int`. -/
theorem atoi_integer_text (ws sgn ds rest : List Char)
    (hws : ∀ ch ∈ ws, isspace ch = true) (hsgn : sgn = [] ∨ sgn = ['+'] ∨ sgn = ['-'])
    (hne : ds ≠ []) (hall : ∀ ch ∈ ds, isdigit ch = true)
    (hrest : ∀ d, rest.head? = some d → isdigit d = false) :
    atoi (ws ++ sgn ++ ds ++ rest) = max (-2147483648) (min (signedValue sgn ds) 2147483647) := by
  have hstop : List.takeWhile isdigit rest = [] := by
    cases rest with
    | nil => rfl
    | cons d r =>
      have := hrest d rfl
      rw [List.takeWhile_cons_of_neg (by rw [this]; decide)]
  have htake : List.takeWhile isdigit (ds ++ rest) = ds := by
    rw [List.takeWhile_append_of_pos hall, hstop, List.append_nil]
  obtain ⟨d, tl, hd⟩ := List.exists_cons_of_ne_nil hne
  have hdig : isdigit d = true := hall d (by rw [hd]; exact List.mem_cons_self d tl)
  have hsp : isspace d = false := isdigit_not_isspace d hdig
  have hminus : d ≠ '-' := isdigit_ne d '-' hdig (by decide)
  have hplus : d ≠ '+' := isdigit_ne d '+' hdig (by decide)
  have hspm : isspace '-' = false := by decide
  have hspp : isspace '+' = false := by decide
  have hpm : ¬ ('+' = '-') := by decide
  have hskip : List.dropWhile isspace (ws ++ sgn ++ ds ++ rest) =
      List.dropWhile isspace (sgn ++ (ds ++ rest)) := by
    rw [List.append_assoc, List.append_assoc, List.dropWhile_append_of_pos hws]
  unfold atoi
  rw [hskip]
  rcases hsgn with h | h | h
  · subst h
    have hsv : signedValue [] ds = (digitsValue ds : Int) := by
      unfold signedValue
      rw [if_neg (by decide)]
    have htk : List.takeWhile isdigit (d :: (tl ++ rest)) = ds := by
      rw [← htake, hd]
      rfl
    rw [hsv, hd]
    simp only [List.nil_append, List.cons_append, List.dropWhile_cons, hsp, Bool.false_eq_true,
      if_false, List.head?_cons, Option.some.injEq, hminus, hplus, or_self]
    rw [htk, ← hd]
    simp only [gt_iff_lt]
    split_ifs <;> omega
  · subst h
    have hsv : signedValue ['+'] ds = (digitsValue ds : Int) := by
      unfold signedValue
      rw [if_neg (by decide)]
    rw [hsv]
    simp only [List.singleton_append, List.dropWhile_cons, hspp, Bool.false_eq_true,
      if_false, List.head?_cons, Option.some.injEq, hpm, or_true, if_true, false_or,
      List.drop_succ_cons, List.drop_zero]
    rw [htake]
    simp only [gt_iff_lt]
    split_ifs <;> omega
  · subst h
    have hsv : signedValue ['-'] ds = -(digitsValue ds : Int) := by
      unfold signedValue
      rw [if_pos rfl]
    rw [hsv]
    simp only [List.singleton_append, List.dropWhile_cons, hspm, Bool.false_eq_true,
      if_false, List.head?_cons, true_or, if_true, List.drop_succ_cons, List.drop_zero]
    rw [htake]
    simp only [gt_iff_lt]
    split_ifs <;> omega

theorem clampSpeed_saturated (v : Int) :
    clampSpeed (max (-2147483648) (min v 2147483647)) = clampSpeed v := by
  simp only [clampSpeed]
  split_ifs <;> omega

/-! ## Tokens -/

/-- A buffer of blanks only has no token. -/
theorem strtok_blank (sp : List Char) (hsp : ∀ ch ∈ sp, ch = ' ') : strtok sp = none := by
  have h : List.dropWhile (fun ch => ch == ' ') sp = [] := by
    have := @List.dropWhile_append_of_pos Char (fun ch => ch == ' ') sp []
      (fun a ha => by simp [hsp a ha])
    simpa using this
  unfold strtok
  simp only [h, List.isEmpty_nil, if_true]

/-- The token `strtok` returns on blanks, then a non-empty blank-free word, then
either the end of the string or a blank and more text. -/
theorem strtok_token (sp tok tail : List Char) (hsp : ∀ ch ∈ sp, ch = ' ') (hne : tok ≠ [])
    (htok : ∀ ch ∈ tok, ch ≠ ' ') (htail : tail = [] ∨ ∃ r, tail = ' ' :: r) :
    strtok (sp ++ tok ++ tail) = some (tok, tail.drop 1) ∧
    List.takeWhile (fun ch => ch == ' ') (sp ++ tok ++ tail) = sp := by
  obtain ⟨t, ts, rfl⟩ := List.exists_cons_of_ne_nil hne
  have ht : t ≠ ' ' := htok t (List.mem_cons_self t ts)
  have hsp' : ∀ a ∈ sp, (fun ch => ch == ' ') a = true := fun a ha => by simp [hsp a ha]
  have htok' : ∀ a ∈ t :: ts, (fun ch => ch != ' ') a = true := fun a ha => by
    simp [htok a ha]
  have hdrop : List.dropWhile (fun ch => ch == ' ') (sp ++ (t :: ts) ++ tail) = t :: ts ++ tail := by
    rw [List.append_assoc, List.dropWhile_append_of_pos hsp', List.cons_append,
      List.dropWhile_cons_of_neg (by simp [ht])]
  have htw : List.takeWhile (fun ch => ch != ' ') tail = [] := by
    rcases htail with h | ⟨r, h⟩ <;> subst h <;> simp
  have hdw : List.dropWhile (fun ch => ch != ' ') tail = tail := by
    rcases htail with h | ⟨r, h⟩ <;> subst h <;> simp
  constructor
  · unfold strtok
    simp only [hdrop]
    rw [List.takeWhile_append_of_pos htok', List.dropWhile_append_of_pos htok', htw, hdw]
    simp
  · rw [List.append_assoc, List.takeWhile_append_of_pos hsp', List.cons_append,
      List.takeWhile_cons_of_neg (by simp [ht])]
    simp

/-- Tokens of a line `<verb> <integer>\n`. -/
theorem strtok_line (verb : List Char) (v : Int) (hne : verb ≠ [])
    (hverb : ∀ ch ∈ verb, ch ≠ ' ') :
    strtok (verb ++ ' ' :: (fmtInt v ++ ['\n'])) = some (verb, fmtInt v ++ ['\n']) ∧
    List.takeWhile (fun ch => ch == ' ') (verb ++ ' ' :: (fmtInt v ++ ['\n'])) = [] ∧
    strtok (fmtInt v ++ ['\n']) = some (fmtInt v ++ ['\n'], []) := by
  have h1 := strtok_token [] verb (' ' :: (fmtInt v ++ ['\n'])) (by simp) hne hverb
    (Or.inr ⟨_, rfl⟩)
  have h2 := strtok_token [] (fmtInt v ++ ['\n']) [] (by simp) (by simp)
    (fun ch hch => (fmtInt_no_blank v ch hch).1) (Or.inl rfl)
  simp only [List.nil_append, List.drop_succ_cons, List.drop_zero, List.append_nil,
    List.drop_nil] at h1 h2
  exact ⟨h1.1, h1.2, h2.1⟩

/-! ## Commands -/

theorem timeoutReply_length (v : Int) (h0 : -2147483648 ≤ v) (h1 : v ≤ 2147483647) :
    ("timeout ".toList ++ fmtInt v ++ ['\n']).length ≤ MAX_UDP_SIZE - 1 := by
  have h := fmtInt_length_le v 10 (by norm_num) (by omega)
  have h8 : "timeout ".toList.length = 8 := by decide
  simp only [List.length_append, List.length_singleton, MAX_UDP_SIZE, h8]
  omega

theorem setTimeout_eq (v : Int) (c : Controller) (h0 : -2147483648 ≤ v) (h1 : v ≤ 2147483647) :
    setTimeout v c =
      { c with timeout_ms := v, buffer := timeoutLine v,
               sent := c.sent ++ [⟨c.remoteIP, c.remotePort, timeoutLine v⟩] } := by
  unfold setTimeout
  simp only []
  rw [snprintf_sendResponse _ _ (timeoutReply_length v h0 h1)]
  rfl

theorem parsePacket_speedLine (v : Int) (now : Nat) (c : Controller)
    (h0 : -2147483648 ≤ v) (h1 : v ≤ 2147483647) (hb : c.buffer = speedLine v) :
    parsePacket now c = setSpeed v c.timeout_ms now { c with buffer := "speed".toList } := by
  have hshape : speedLine v = "speed".toList ++ ' ' :: (fmtInt v ++ ['\n']) := by
    unfold speedLine
    have : "speed ".toList = "speed".toList ++ [' '] := by decide
    rw [this]
    simp only [List.append_assoc, List.singleton_append]
    rfl
  obtain ⟨ht1, htw, ht2⟩ := strtok_line "speed".toList v (by decide) (by decide)
  unfold parsePacket
  rw [hb, hshape]
  simp only [ht1, htw, ht2, Option.map_some', List.nil_append, if_true, atoi_fmtInt v h0 h1]

theorem parsePacket_timeoutLine (v : Int) (now : Nat) (c : Controller)
    (h0 : -2147483648 ≤ v) (h1 : v ≤ 2147483647) (hb : c.buffer = timeoutLine v) :
    parsePacket now c = setTimeout v { c with buffer := "timeout".toList } := by
  have hshape : timeoutLine v = "timeout".toList ++ ' ' :: (fmtInt v ++ ['\n']) := by
    unfold timeoutLine
    have : "timeout ".toList = "timeout".toList ++ [' '] := by decide
    rw [this]
    simp only [List.append_assoc, List.singleton_append]
    rfl
  obtain ⟨ht1, htw, ht2⟩ := strtok_line "timeout".toList v (by decide) (by decide)
  have hverb : ¬ ("timeout".toList = "speed".toList) := by decide
  unfold parsePacket
  rw [hb, hshape]
  simp only [ht1, htw, ht2, Option.map_some', List.nil_append, if_true, hverb, if_false,
    atoi_fmtInt v h0 h1]

/-- Tokens of a payload `<verb> <argument>` followed by nothing or by a blank
and more text. -/
theorem strtok_verb_arg (verb a tail : List Char) (hvne : verb ≠ [])
    (hverb : ∀ ch ∈ verb, ch ≠ ' ') (hane : a ≠ []) (ha : ∀ ch ∈ a, ch ≠ ' ')
    (htail : tail = [] ∨ ∃ r, tail = ' ' :: r) :
    strtok (verb ++ ' ' :: (a ++ tail)) = some (verb, a ++ tail) ∧
    List.takeWhile (fun ch => ch == ' ') (verb ++ ' ' :: (a ++ tail)) = [] ∧
    strtok (a ++ tail) = some (a, tail.drop 1) := by
  have h1 := strtok_token [] verb (' ' :: (a ++ tail)) (by simp) hvne hverb (Or.inr ⟨_, rfl⟩)
  have h2 := strtok_token [] a tail (by simp) hane ha htail
  simp only [List.nil_append, List.drop_succ_cons, List.drop_zero] at h1 h2
  exact ⟨h1.1, h1.2, h2.1⟩

theorem parsePacket_speed_arg (a tail : List Char) (now : Nat) (c : Controller)
    (hane : a ≠ []) (ha : ∀ ch ∈ a, ch ≠ ' ') (htail : tail = [] ∨ ∃ r, tail = ' ' :: r)
    (hb : c.buffer = "speed".toList ++ ' ' :: (a ++ tail)) :
    parsePacket now c = setSpeed (atoi a) c.timeout_ms now { c with buffer := "speed".toList } := by
  obtain ⟨ht1, htw, ht2⟩ := strtok_verb_arg "speed".toList a tail (by decide) (by decide)
    hane ha htail
  unfold parsePacket
  rw [hb]
  simp only [ht1, htw, ht2, Option.map_some', List.nil_append, if_true]

theorem parsePacket_timeout_arg (a tail : List Char) (now : Nat) (c : Controller)
    (hane : a ≠ []) (ha : ∀ ch ∈ a, ch ≠ ' ') (htail : tail = [] ∨ ∃ r, tail = ' ' :: r)
    (hb : c.buffer = "timeout".toList ++ ' ' :: (a ++ tail)) :
    parsePacket now c = setTimeout (atoi a) { c with buffer := "timeout".toList } := by
  obtain ⟨ht1, htw, ht2⟩ := strtok_verb_arg "timeout".toList a tail (by decide) (by decide)
    hane ha htail
  have hverb : ¬ ("timeout".toList = "speed".toList) := by decide
  unfold parsePacket
  rw [hb]
  simp only [ht1, htw, ht2, Option.map_some', List.nil_append, if_true, hverb, if_false]

/-- What is in `buffer` before `setSpeed` runs has no influence on the control
side of its result. -/
theorem setSpeed_buffer_irrelevant (s t : Int) (now : Nat) (c : Controller) (b : List Char) :
    SameControl (setSpeed s t now { c with buffer := b }) (setSpeed s t now c) := by
  unfold SameControl
  refine ⟨?_, ?_, ?_, ?_, ?_, ?_, ?_, ?_, ?_⟩
  · rw [setSpeed_display_speed, setSpeed_display_speed]
  · rw [setSpeed_timeout_ms, setSpeed_timeout_ms]
  · rw [setSpeed_timeout, setSpeed_timeout]
  · rw [setSpeed_in1, setSpeed_in1]
  · rw [setSpeed_in2, setSpeed_in2]
  · rw [setSpeed_duty, setSpeed_duty]
  · rw [(setSpeed_remote _ _ _ _).1, (setSpeed_remote _ _ _ _).1]
  · rw [(setSpeed_remote _ _ _ _).2, (setSpeed_remote _ _ _ _).2]
  · rw [setSpeed_sent, setSpeed_sent]

/-- A datagram of text (non-empty, no NUL byte, fitting the buffer) is parsed as
it stands, with its sender remembered. -/
theorem handlePacket_text (d : Datagram) (now : Nat) (c : Controller)
    (hne : d.payload ≠ []) (hlen : d.payload.length ≤ MAX_UDP_SIZE)
    (hnul : ∀ ch ∈ d.payload, ch ≠ '\x00') :
    handlePacket (some d) false now c =
      some ⟨true, parsePacket now
        { c with remoteIP := d.ip, remotePort := d.port, buffer := d.payload }⟩ := by
  have hl : d.payload.length ≠ 0 := by
    intro h
    exact hne (List.length_eq_zero.mp h)
  have htake : List.take (udpRead d) d.payload = d.payload := by
    unfold udpRead
    rw [Nat.min_eq_left hlen, List.take_length]
  have htw : List.takeWhile (fun ch => ch != '\x00') d.payload = d.payload := by
    rw [List.takeWhile_eq_self_iff]
    intro x hx
    simp [hnul x hx]
  unfold handlePacket
  simp only [Bool.false_eq_true, if_false, hl, htake, htw]

/-! ## The motor side of the state along a run -/

theorem outputs_setSpeed (s t : Int) (now : Nat) (c : Controller) :
    outputs (setSpeed s t now c) = outputsFor (clampSpeed s) := by
  unfold outputs outputsFor
  rw [setSpeed_display_speed, setSpeed_in1, setSpeed_in2, setSpeed_duty]

theorem outputs_sendResponse (n : Nat) (c : Controller) :
    outputs (sendResponse n c) = outputs c := rfl

theorem outputs_snprintf (text : List Char) (c : Controller) :
    outputs (snprintf text c).2 = outputs c := rfl

theorem outputs_setTimeout (v : Int) (c : Controller) :
    outputs (setTimeout v c) = outputs c := by
  unfold setTimeout
  simp only []
  rw [outputs_sendResponse, outputs_snprintf]
  rfl

theorem outputs_frame (c : Controller) (x : Int) :
    outputs { c with display_redraw := x } = outputs c := rfl

theorem outputs_redraw (now : Nat) (c : Controller) : outputs (redraw now c) = outputs c :=
  outputs_frame c _

theorem redraw_frame (c : Controller) (x : Int) :
    ({ c with display_redraw := x } : Controller).display_speed = c.display_speed ∧
    ({ c with display_redraw := x } : Controller).sent = c.sent ∧
    ({ c with display_redraw := x } : Controller).remoteIP = c.remoteIP ∧
    ({ c with display_redraw := x } : Controller).remotePort = c.remotePort ∧
    ({ c with display_redraw := x } : Controller).timeout_ms = c.timeout_ms ∧
    ({ c with display_redraw := x } : Controller).timeout = c.timeout :=
  ⟨rfl, rfl, rfl, rfl, rfl, rfl⟩

/-- What `redraw` leaves alone: everything but `display_redraw`. -/
theorem redraw_fields (now : Nat) (c : Controller) :
    (redraw now c).display_speed = c.display_speed ∧ (redraw now c).sent = c.sent ∧
    (redraw now c).remoteIP = c.remoteIP ∧ (redraw now c).remotePort = c.remotePort ∧
    (redraw now c).timeout_ms = c.timeout_ms ∧ (redraw now c).timeout = c.timeout :=
  redraw_frame c _

/-- The state `setup` leaves: speed 0, nothing sent, no sender, timeout 500. -/
theorem setup_fields (a b : Nat) :
    (setup a b).display_speed = 0 ∧ (setup a b).sent = [] ∧ (setup a b).remoteIP = 0 ∧
    (setup a b).remotePort = 0 ∧ (setup a b).timeout_ms = 500 := by
  obtain ⟨h1, h2, h3, h4, h5, _⟩ := redraw_fields a powerOn
  unfold setup
  simp only []
  rw [setSpeed_display_speed, setSpeed_sent, (setSpeed_remote _ _ _ _).1,
    (setSpeed_remote _ _ _ _).2, setSpeed_timeout_ms, h1, h2, h3, h4, h5]
  exact ⟨rfl, rfl, rfl, rfl, rfl⟩

theorem outputs_parsePacket (now : Nat) (c : Controller) :
    outputs (parsePacket now c) = outputs c ∨
      ∃ s, outputs (parsePacket now c) = outputsFor (clampSpeed s) := by
  unfold parsePacket
  split
  · exact Or.inl rfl
  · simp only []
    split_ifs
    · split
      · exact Or.inl rfl
      · exact Or.inr ⟨_, outputs_setSpeed _ _ _ _⟩
    · split
      · exact Or.inl rfl
      · exact Or.inl (outputs_setTimeout _ _)
    · exact Or.inl rfl

theorem outputs_handlePacket (pending : Option Datagram) (errno5 : Bool) (now : Nat)
    (c : Controller) (r : PacketResult) (h : handlePacket pending errno5 now c = some r) :
    outputs r.state = outputs c ∨ ∃ s, outputs r.state = outputsFor (clampSpeed s) := by
  unfold handlePacket at h
  split_ifs at h
  split at h
  · simp only [Option.some.injEq] at h
    subst h
    exact Or.inl rfl
  · split_ifs at h
    · simp only [Option.some.injEq] at h
      subst h
      exact Or.inl rfl
    · simp only [Option.some.injEq] at h
      subst h
      exact outputs_parsePacket _ _

theorem outputs_handleButtons (b : ButtonReads) (now : Nat) (c : Controller) :
    outputs (handleButtons b now c).2 = outputs c ∨
      ∃ s, outputs (handleButtons b now c).2 = outputsFor (clampSpeed s) := by
  unfold handleButtons
  split_ifs
  · exact Or.inr ⟨_, outputs_setSpeed _ _ _ _⟩
  · exact Or.inr ⟨_, outputs_setSpeed _ _ _ _⟩
  · exact Or.inr ⟨_, outputs_setSpeed _ _ _ _⟩
  · exact Or.inl rfl

theorem outputs_tickSafety (n nStop : Nat) (c : Controller) :
    outputs (tickSafety n nStop c) = outputs c ∨
      ∃ s, outputs (tickSafety n nStop c) = outputsFor (clampSpeed s) := by
  unfold tickSafety
  split_ifs
  · exact Or.inr ⟨_, outputs_setSpeed _ _ _ _⟩
  · exact Or.inl rfl

theorem outputs_loop (i : CycleInput) (c c' : Controller) (h : loop i c = some c') :
    outputs c' = outputs c ∨ ∃ s, outputs c' = outputsFor (clampSpeed s) := by
  unfold loop at h
  simp only [Option.map_eq_some'] at h
  obtain ⟨c1, hnet, hc'⟩ := h
  have h1 : outputs c1 = outputs c ∨ ∃ s, outputs c1 = outputsFor (clampSpeed s) := by
    split_ifs at hnet
    · simp only [Option.some.injEq] at hnet
      subst hnet
      exact outputs_handleButtons _ _ _
    · simp only [Option.map_eq_some'] at hnet
      obtain ⟨r, hr, hrc⟩ := hnet
      subst hrc
      rcases outputs_handlePacket _ _ _ _ r hr with hp | hp
      · rcases outputs_handleButtons i.buttons i.nowCmd c with hb | hb
        · exact Or.inl (hp.trans hb)
        · obtain ⟨s, hs⟩ := hb
          exact Or.inr ⟨s, hp.trans hs⟩
      · exact Or.inr hp
  have h2 : outputs c' = outputs (tickSafety i.nowCheck i.nowStop c1) := by
    subst hc'
    split_ifs
    · exact outputs_redraw _ _
    · rfl
  rcases outputs_tickSafety i.nowCheck i.nowStop c1 with ht | ht
  · rcases h1 with h1 | h1
    · exact Or.inl (h2.trans (ht.trans h1))
    · obtain ⟨s, hs⟩ := h1
      exact Or.inr ⟨s, h2.trans (ht.trans hs)⟩
  · obtain ⟨s, hs⟩ := ht
    exact Or.inr ⟨s, h2.trans hs⟩

theorem reachableBySteps_of_reachable (c : Controller) (h : Reachable c) :
    ReachableBySteps c := by
  induction h with
  | start a b => exact ReachableBySteps.start a b
  | cycle i c c' _ hstep ih => exact ReachableBySteps.cycle i c c' ih hstep

theorem reachableBySteps_outputs (c : Controller) (h : ReachableBySteps c) :
    ∃ s, outputs c = outputsFor (clampSpeed s) := by
  induction h with
  | start a b => exact ⟨0, outputs_setSpeed _ _ _ _⟩
  | speed s t now c _ _ => exact ⟨s, outputs_setSpeed _ _ _ _⟩
  | window v c _ ih =>
    obtain ⟨s, hs⟩ := ih
    exact ⟨s, (outputs_setTimeout v c).trans hs⟩
  | parse buf now c _ ih =>
    rcases outputs_parsePacket now { c with buffer := buf } with h | h
    · obtain ⟨s, hs⟩ := ih
      exact ⟨s, h.trans hs⟩
    · exact h
  | buttons b now c _ ih =>
    rcases outputs_handleButtons b now c with h | h
    · obtain ⟨s, hs⟩ := ih
      exact ⟨s, h.trans hs⟩
    · exact h
  | safety n nStop c _ ih =>
    rcases outputs_tickSafety n nStop c with h | h
    · obtain ⟨s, hs⟩ := ih
      exact ⟨s, h.trans hs⟩
    · exact h
  | cycle i c c' _ hstep ih =>
    rcases outputs_loop i c c' hstep with h | h
    · obtain ⟨s, hs⟩ := ih
      exact ⟨s, h.trans hs⟩
    · exact h

/-- A running motor has a stored speed other than 0, in every state reached by
steps. -/
theorem moving_iff_speed (c : Controller) (h : ReachableBySteps c) :
    (c.in1 || c.in2) = true ↔ c.display_speed ≠ 0 := by
  obtain ⟨s, hs⟩ := reachableBySteps_outputs c h
  unfold outputs outputsFor at hs
  simp only [Prod.mk.injEq] at hs
  obtain ⟨h0, h1, h2, _⟩ := hs
  rw [h0, h1, h2]
  simp only [Bool.or_eq_true, decide_eq_true_eq]
  omega

/-! ## Buttons and the pass of `loop` -/

theorem handleButtons_steady (up down : Bool) (now : Nat) (c : Controller) :
    handleButtons (steady up down) now c =
      (up || down,
       if (up && down) = true then setSpeed 0 10 now c
       else if up = true then setSpeed 255 10 now c
       else if down = true then setSpeed (-255) 10 now c
       else c) := by
  cases up <;> cases down <;> simp [handleButtons, steady]

theorem handleButtons_pressed (up down : Bool) (now : Nat) (c : Controller)
    (h : (up || down) = true) :
    handleButtons (steady up down) now c =
      (true, setSpeed (if (up && down) = true then 0 else if up = true then 255 else -255)
        10 now c) := by
  cases up <;> cases down <;> simp [handleButtons, steady] at h ⊢

/-- When the first test of `handleButtons` reads both buttons high, or the
second reads up high, or the third reads down high, it calls `setSpeed` with
the button's speed and returns true. -/
theorem handleButtons_true (b : ButtonReads) (now : Nat) (c : Controller)
    (h : (b.up1 && b.down1 || b.up2 || b.down2) = true) :
    handleButtons b now c =
      (true, setSpeed (if (b.up1 && b.down1) = true then 0 else if b.up2 = true then 255 else -255)
        10 now c) := by
  obtain ⟨u1, d1, u2, d2⟩ := b
  cases u1 <;> cases d1 <;> cases u2 <;> cases d2 <;> simp [handleButtons] at h ⊢

theorem loop_of_button (i : CycleInput) (c : Controller)
    (h : (handleButtons i.buttons i.nowCmd c).1 = true) :
    loop i c = some (refresh i.nowDraw i.nowRedraw
      (tickSafety i.nowCheck i.nowStop (handleButtons i.buttons i.nowCmd c).2)) := by
  unfold loop refresh
  simp only [h, if_true, Option.map_some']

theorem refresh_fields (nowDraw nowRedraw : Nat) (c : Controller) :
    (refresh nowDraw nowRedraw c).display_speed = c.display_speed ∧
    (refresh nowDraw nowRedraw c).sent = c.sent ∧
    (refresh nowDraw nowRedraw c).remoteIP = c.remoteIP ∧
    (refresh nowDraw nowRedraw c).remotePort = c.remotePort ∧
    (refresh nowDraw nowRedraw c).timeout_ms = c.timeout_ms ∧
    (refresh nowDraw nowRedraw c).timeout = c.timeout := by
  unfold refresh
  split_ifs
  · exact redraw_fields nowRedraw c
  · exact ⟨rfl, rfl, rfl, rfl, rfl, rfl⟩

theorem tickSafety_cases (n nStop : Nat) (c : Controller) :
    (¬ (toU32 c.timeout < (n : Int) ∧ (c.in1 || c.in2) = true) ∧ tickSafety n nStop c = c) ∨
    ((toU32 c.timeout < (n : Int) ∧ (c.in1 || c.in2) = true) ∧
      tickSafety n nStop c = setSpeed 0 0 nStop c) := by
  unfold tickSafety
  by_cases h : toU32 c.timeout < (n : Int) ∧ (c.in1 || c.in2) = true
  · exact Or.inr ⟨h, if_pos h⟩
  · exact Or.inl ⟨h, if_neg h⟩

theorem tickSafety_remote (n nStop : Nat) (c : Controller) :
    (tickSafety n nStop c).remoteIP = c.remoteIP ∧
    (tickSafety n nStop c).remotePort = c.remotePort ∧
    (tickSafety n nStop c).timeout_ms = c.timeout_ms := by
  rcases tickSafety_cases n nStop c with ⟨_, h⟩ | ⟨_, h⟩
  · rw [h]
    exact ⟨rfl, rfl, rfl⟩
  · rw [h]
    exact ⟨(setSpeed_remote _ _ _ _).1, (setSpeed_remote _ _ _ _).2, setSpeed_timeout_ms _ _ _ _⟩

theorem handleButtons_false (b : ButtonReads) (now : Nat) (c : Controller)
    (h : (handleButtons b now c).1 = false) : (handleButtons b now c).2 = c := by
  unfold handleButtons at h ⊢
  split_ifs at h ⊢
  rfl

theorem handleButtons_fields (b : ButtonReads) (now : Nat) (c : Controller) :
    (handleButtons b now c).2.remoteIP = c.remoteIP ∧
    (handleButtons b now c).2.remotePort = c.remotePort ∧
    (handleButtons b now c).2.timeout_ms = c.timeout_ms := by
  unfold handleButtons
  split_ifs
  · exact ⟨(setSpeed_remote _ _ _ _).1, (setSpeed_remote _ _ _ _).2, setSpeed_timeout_ms _ _ _ _⟩
  · exact ⟨(setSpeed_remote _ _ _ _).1, (setSpeed_remote _ _ _ _).2, setSpeed_timeout_ms _ _ _ _⟩
  · exact ⟨(setSpeed_remote _ _ _ _).1, (setSpeed_remote _ _ _ _).2, setSpeed_timeout_ms _ _ _ _⟩
  · exact ⟨rfl, rfl, rfl⟩

/-- The two ways a pass of `loop` can go: a button was high, or the network
was polled. -/
theorem loop_some (i : CycleInput) (c c' : Controller) (h : loop i c = some c') :
    ∃ c1, c' = refresh i.nowDraw i.nowRedraw (tickSafety i.nowCheck i.nowStop c1) ∧
      (((handleButtons i.buttons i.nowCmd c).1 = true ∧
          c1 = (handleButtons i.buttons i.nowCmd c).2) ∨
        ((handleButtons i.buttons i.nowCmd c).1 = false ∧
          ∃ r, handlePacket i.pending i.errno5 i.nowCmd c = some r ∧ c1 = r.state)) := by
  unfold loop at h
  simp only [Option.map_eq_some'] at h
  obtain ⟨c1, hnet, hc'⟩ := h
  refine ⟨c1, hc'.symm, ?_⟩
  by_cases hb : (handleButtons i.buttons i.nowCmd c).1 = true
  · rw [if_pos hb] at hnet
    simp only [Option.some.injEq] at hnet
    exact Or.inl ⟨hb, hnet.symm⟩
  · rw [if_neg hb] at hnet
    simp only [Option.map_eq_some'] at hnet
    obtain ⟨r, hr, hrc⟩ := hnet
    have hbf : (handleButtons i.buttons i.nowCmd c).1 = false := by
      simpa using hb
    rw [handleButtons_false _ _ _ hbf] at hr
    exact Or.inr ⟨hbf, r, hr, hrc.symm⟩

theorem setTimeout_fields (v : Int) (c : Controller) :
    (setTimeout v c).timeout_ms = v ∧ (setTimeout v c).remoteIP = c.remoteIP ∧
    (setTimeout v c).remotePort = c.remotePort :=
  ⟨rfl, rfl, rfl⟩

/-- What `parsePacket` does to the configured timeout and to the remembered
sender: the timeout stays or becomes the value of an argument token, the sender
stays. -/
theorem parsePacket_fields (now : Nat) (c : Controller) :
    ((parsePacket now c).timeout_ms = c.timeout_ms ∨
      ∃ a, (parsePacket now c).timeout_ms = atoi a) ∧
    (parsePacket now c).remoteIP = c.remoteIP ∧
    (parsePacket now c).remotePort = c.remotePort := by
  unfold parsePacket
  split
  · exact ⟨Or.inl rfl, rfl, rfl⟩
  · simp only []
    split_ifs
    · split
      · exact ⟨Or.inl rfl, rfl, rfl⟩
      · exact ⟨Or.inl (setSpeed_timeout_ms _ _ _ _), (setSpeed_remote _ _ _ _).1,
          (setSpeed_remote _ _ _ _).2⟩
    · split
      · exact ⟨Or.inl rfl, rfl, rfl⟩
      · exact ⟨Or.inr ⟨_, (setTimeout_fields _ _).1⟩, (setTimeout_fields _ _).2.1,
          (setTimeout_fields _ _).2.2⟩
    · exact ⟨Or.inl rfl, rfl, rfl⟩

/-- What `handlePacket` does to the remembered sender and the configured
timeout: a datagram of non-zero size becomes the remembered sender, whatever
its payload. -/
theorem handlePacket_fields (pending : Option Datagram) (errno5 : Bool) (now : Nat)
    (c : Controller) (r : PacketResult) (h : handlePacket pending errno5 now c = some r) :
    (r.state.timeout_ms = c.timeout_ms ∨ ∃ a, r.state.timeout_ms = atoi a) ∧
    ((pending = none ∨ ∃ d, pending = some d ∧ d.payload = []) → r.state = c) ∧
    (∀ d, pending = some d → d.payload ≠ [] →
      r.state.remoteIP = d.ip ∧ r.state.remotePort = d.port) := by
  unfold handlePacket at h
  split_ifs at h
  split at h
  · simp only [Option.some.injEq] at h
    subst h
    exact ⟨Or.inl rfl, fun _ => rfl, fun d hd => absurd hd (by simp)⟩
  · rename_i d0
    split_ifs at h with hlen
    · simp only [Option.some.injEq] at h
      subst h
      refine ⟨Or.inl rfl, fun _ => rfl, fun d hd hne => ?_⟩
      simp only [Option.some.injEq] at hd
      subst hd
      exact absurd (List.length_eq_zero.mp hlen) hne
    · simp only [Option.some.injEq] at h
      subst h
      refine ⟨(parsePacket_fields _ _).1, ?_, ?_⟩
      · intro hp
        rcases hp with hp | ⟨d, hd, hnil⟩
        · exact absurd hp (by simp)
        · simp only [Option.some.injEq] at hd
          subst hd
          rw [hnil] at hlen
          exact absurd rfl hlen
      · intro d hd _
        simp only [Option.some.injEq] at hd
        subst hd
        exact ⟨(parsePacket_fields _ _).2.1, (parsePacket_fields _ _).2.2⟩

/-- The configured timeout after a pass of `loop`: as before, or the value of
an argument token. -/
theorem loop_timeout_ms (i : CycleInput) (c c' : Controller) (h : loop i c = some c') :
    c'.timeout_ms = c.timeout_ms ∨ ∃ a, c'.timeout_ms = atoi a := by
  obtain ⟨c1, hc', hc1⟩ := loop_some i c c' h
  have h1 : c'.timeout_ms = c1.timeout_ms := by
    rw [hc', (refresh_fields _ _ _).2.2.2.2.1, (tickSafety_remote _ _ _).2.2]
  rw [h1]
  rcases hc1 with ⟨_, hb⟩ | ⟨_, r, hr, hrs⟩
  · rw [hb]
    exact Or.inl (handleButtons_fields _ _ _).2.2
  · rw [hrs]
    exact (handlePacket_fields _ _ _ _ r hr).1

/-! ## Where the configured timeout comes from -/

/-- The configured timeout after `parsePacket`: the value of the argument
token when the buffer holds a `timeout` command with one, the old value
otherwise. -/
theorem parsePacket_timeout_ms (now : Nat) (c : Controller) :
    (∀ a, timeoutArgument c.buffer = some a → (parsePacket now c).timeout_ms = atoi a) ∧
    (timeoutArgument c.buffer = none → (parsePacket now c).timeout_ms = c.timeout_ms) := by
  have hverb : ¬ ("speed".toList = "timeout".toList) := by decide
  unfold parsePacket timeoutArgument
  cases hs : strtok c.buffer with
  | none =>
    simp only []
    exact ⟨fun a h => absurd h (by simp), fun _ => trivial⟩
  | some tk =>
    obtain ⟨cmd, rest⟩ := tk
    simp only []
    by_cases h1 : cmd = "speed".toList
    · subst h1
      simp only [if_true, hverb, if_false]
      refine ⟨fun a h => absurd h (by simp), fun _ => ?_⟩
      cases strtok rest with
      | none => rfl
      | some t2 => exact setSpeed_timeout_ms _ _ _ _
    · by_cases h2 : cmd = "timeout".toList
      · subst h2
        simp only [h1, if_false, if_true]
        cases strtok rest with
        | none => exact ⟨fun a h => absurd h (by simp), fun _ => rfl⟩
        | some t2 =>
          simp only [Option.map_some', Option.some.injEq]
          refine ⟨fun a h => ?_, fun h => absurd h (by simp)⟩
          rw [← h]
          exact (setTimeout_fields _ _).1
      · simp only [h1, h2, if_false]
        exact ⟨fun a h => absurd h (by simp), fun _ => trivial⟩

theorem handleButtons_flag (b : ButtonReads) (now : Nat) (c : Controller) :
    (handleButtons b now c).1 = (b.up1 && b.down1 || b.up2 || b.down2) := by
  obtain ⟨u1, d1, u2, d2⟩ := b
  cases u1 <;> cases d1 <;> cases u2 <;> cases d2 <;> simp [handleButtons]

/-- The configured timeout after a pass of `loop`: it changes only through a
received `timeout` command with an argument token, and such a command, when
no button intervenes, always sets it to the value of that token. -/
theorem loop_timeout_source (i : CycleInput) (c c' : Controller) (h : loop i c = some c') :
    (c'.timeout_ms = c.timeout_ms ∨
      ∃ d a, i.pending = some d ∧ d.payload ≠ [] ∧
        timeoutArgument (receivedText d) = some a ∧ c'.timeout_ms = atoi a) ∧
    (∀ d a, (i.buttons.up1 && i.buttons.down1 || i.buttons.up2 || i.buttons.down2) = false →
      i.pending = some d → d.payload ≠ [] → timeoutArgument (receivedText d) = some a →
      c'.timeout_ms = atoi a) := by
  obtain ⟨c1, hc', hc1⟩ := loop_some i c c' h
  have h1 : c'.timeout_ms = c1.timeout_ms := by
    rw [hc', (refresh_fields _ _ _).2.2.2.2.1, (tickSafety_remote _ _ _).2.2]
  have hpkt : ∀ r, handlePacket i.pending i.errno5 i.nowCmd c = some r →
      (r.state.timeout_ms = c.timeout_ms ∨
        ∃ d a, i.pending = some d ∧ d.payload ≠ [] ∧
          timeoutArgument (receivedText d) = some a ∧ r.state.timeout_ms = atoi a) ∧
      (∀ d a, i.pending = some d → d.payload ≠ [] → timeoutArgument (receivedText d) = some a →
        r.state.timeout_ms = atoi a) := by
    intro r hr
    unfold handlePacket at hr
    split_ifs at hr
    cases hp : i.pending with
    | none =>
      rw [hp] at hr
      simp only [Option.some.injEq] at hr
      subst hr
      exact ⟨Or.inl rfl, fun d a hd => absurd hd (by simp)⟩
    | some d0 =>
      rw [hp] at hr
      simp only [] at hr
      split_ifs at hr with hlen
      · simp only [Option.some.injEq] at hr
        subst hr
        refine ⟨Or.inl rfl, fun d a hd hne => ?_⟩
        simp only [Option.some.injEq] at hd
        subst hd
        exact absurd (List.length_eq_zero.mp hlen) hne
      · simp only [Option.some.injEq] at hr
        subst hr
        have hne0 : d0.payload ≠ [] := fun e => hlen (by rw [e]; rfl)
        have hpp := parsePacket_timeout_ms i.nowCmd
          { c with remoteIP := d0.ip, remotePort := d0.port, buffer := receivedText d0 }
        constructor
        · cases hta : timeoutArgument (receivedText d0) with
          | none => exact Or.inl (hpp.2 hta)
          | some a => exact Or.inr ⟨d0, a, rfl, hne0, hta, hpp.1 a hta⟩
        · intro d a hd _ hta
          simp only [Option.some.injEq] at hd
          subst hd
          exact hpp.1 a hta
  rw [h1]
  rcases hc1 with ⟨hb, hbs⟩ | ⟨hb, r, hr, hrs⟩
  · constructor
    · rw [hbs]
      exact Or.inl (handleButtons_fields _ _ _).2.2
    · intro d a hno
      rw [handleButtons_flag, hno] at hb
      exact absurd hb (by decide)
  · rw [hrs]
    exact ⟨(hpkt r hr).1, fun d a _ => (hpkt r hr).2 d a⟩

/-- The scenario `negativeTimeoutRun` really ends in `negativeDeadlineState`. -/
theorem negativeTimeoutRun_eq : negativeTimeoutRun = some negativeDeadlineState := by
  decide

theorem negativeDeadlineState_reachable : Reachable negativeDeadlineState := by
  have h := negativeTimeoutRun_eq
  unfold negativeTimeoutRun at h
  cases h1 : loop (packetCycle ⟨3232236289, 4000, "timeout -1000\n".toList⟩ 1) (setup 0 0) with
  | none => rw [h1] at h; exact absurd h (by simp)
  | some c1 =>
    rw [h1, Option.some_bind] at h
    exact Reachable.cycle _ c1 _ (Reachable.cycle _ _ _ (Reachable.start 0 0) h1) h

/-! ## C1: the dead-man guarantee -/

/-- C1, as stated, fails: after `setSpeed(100, 500)` at clock 0 the safety check
run at clock 500, which is `now + t`, leaves the speed at 100; and after
`setSpeed(100, -1000)` at clock 5 the check run at clock 10 leaves it at 100. -/
theorem deadman_not_at_deadline_nor_negative :
    (tickSafety 500 500 (setSpeed 100 500 0 (setup 0 0))).display_speed = 100 ∧
    (tickSafety 10 10 (setSpeed 100 (-1000) 5 (setup 0 0))).display_speed = 100 := by
  decide

/-- C1, amended: if `setSpeed(s, t)` with `s ≠ 0` runs at clock `now` with
`0 ≤ now + t`, the safety check run next at any clock `n` strictly after
`now + t` (whatever the clock read inside its `setSpeed(0, 0)`) leaves the
stored speed at 0 and both direction outputs low. -/
theorem deadman_after_deadline (s t : Int) (now n nStop : Nat) (c : Controller)
    (hs : s ≠ 0) (h0 : 0 ≤ (now : Int) + t) (hn : (now : Int) + t < n) (hclock : n < 4294967296) :
    (tickSafety n nStop (setSpeed s t now c)).display_speed = 0 ∧
    (tickSafety n nStop (setSpeed s t now c)).in1 = false ∧
    (tickSafety n nStop (setSpeed s t now c)).in2 = false := by
  have hd := setSpeed_deadline s t now c
  have hlt : toU32 (setSpeed s t now c).timeout < (n : Int) := by
    rw [hd]
    omega
  have hk := clampSpeed_ne_zero s hs
  have hmove : ((setSpeed s t now c).in1 || (setSpeed s t now c).in2) = true := by
    rw [setSpeed_in1, setSpeed_in2]
    simp only [Bool.or_eq_true, decide_eq_true_eq]
    omega
  have hrun : tickSafety n nStop (setSpeed s t now c) = setSpeed 0 0 nStop (setSpeed s t now c) := by
    unfold tickSafety
    rw [if_pos ⟨hlt, hmove⟩]
  rw [hrun, setSpeed_display_speed, setSpeed_in1, setSpeed_in2]
  decide

/-- C1, amended, at `setSpeed(100, 500)` at clock 0 and a check at clock 501. -/
theorem deadman_after_deadline_witness :
    (tickSafety 501 501 (setSpeed 100 500 0 (setup 0 0))).display_speed = 0 ∧
    (tickSafety 501 501 (setSpeed 100 500 0 (setup 0 0))).in1 = false ∧
    (tickSafety 501 501 (setSpeed 100 500 0 (setup 0 0))).in2 = false :=
  deadman_after_deadline 100 500 0 501 501 (setup 0 0) (by decide) (by decide) (by decide)
    (by decide)

/-! ## C2: the speed clamp -/

/-- C2: after `setSpeed(s, t)` the stored speed lies in `[-255, 255]`; it is `s`
when `|s| ≤ 255`, `255` when `s > 255` and `-255` when `s < -255`. -/
theorem setSpeed_clamps (s t : Int) (now : Nat) (c : Controller) :
    -255 ≤ (setSpeed s t now c).display_speed ∧ (setSpeed s t now c).display_speed ≤ 255 ∧
    (-255 ≤ s ∧ s ≤ 255 → (setSpeed s t now c).display_speed = s) ∧
    (s > 255 → (setSpeed s t now c).display_speed = 255) ∧
    (s < -255 → (setSpeed s t now c).display_speed = -255) := by
  rw [setSpeed_display_speed]
  simp only [clampSpeed]
  refine ⟨?_, ?_, ?_, ?_, ?_⟩ <;> split_ifs <;> omega

/-- C2 at the speeds 300, -300 and -42. -/
theorem setSpeed_clamps_witness :
    (setSpeed 300 500 7 (setup 0 0)).display_speed = 255 ∧
    (setSpeed (-300) 500 7 (setup 0 0)).display_speed = -255 ∧
    (setSpeed (-42) 500 7 (setup 0 0)).display_speed = -42 :=
  ⟨(setSpeed_clamps 300 500 7 (setup 0 0)).2.2.2.1 (by decide),
   (setSpeed_clamps (-300) 500 7 (setup 0 0)).2.2.2.2 (by decide),
   (setSpeed_clamps (-42) 500 7 (setup 0 0)).2.2.1 (by decide)⟩

/-! ## C3: the guard of the safety check -/

/-- C3, as stated, fails in the reachable state `negativeDeadlineState`: the
variable `timeout` holds -995, the clock reads 10 and `IN2` is high, so
`now > timeout` holds and an output is high, yet the safety check changes
nothing where `setSpeed(0, 0)` would have stopped the motor. -/
theorem tickSafety_skips_negative_deadline :
    negativeDeadlineState.timeout < 10 ∧ negativeDeadlineState.in2 = true ∧
    tickSafety 10 10 negativeDeadlineState = negativeDeadlineState ∧
    (tickSafety 10 10 negativeDeadlineState).display_speed = 100 ∧
    (setSpeed 0 0 10 negativeDeadlineState).display_speed = 0 := by
  decide

/-- C3, amended: the safety check run at clock `n` performs `setSpeed(0, 0)`,
and thereby changes the state, exactly when `n` exceeds the variable `timeout`
converted to unsigned 32 bits and `IN1` or `IN2` is high; otherwise the state,
the list of sent datagrams included, is unchanged.  For a non-negative `int`
value of `timeout` the converted value is `timeout` itself. -/
theorem tickSafety_guard (c : Controller) (n nStop : Nat) :
    (tickSafety n nStop c =
      if c.timeout % 4294967296 < (n : Int) ∧ (c.in1 = true ∨ c.in2 = true)
      then setSpeed 0 0 nStop c else c) ∧
    (tickSafety n nStop c ≠ c ↔
      c.timeout % 4294967296 < (n : Int) ∧ (c.in1 = true ∨ c.in2 = true)) ∧
    (0 ≤ c.timeout ∧ c.timeout < 2147483648 → c.timeout % 4294967296 = c.timeout) := by
  have hform : tickSafety n nStop c =
      if c.timeout % 4294967296 < (n : Int) ∧ (c.in1 = true ∨ c.in2 = true)
      then setSpeed 0 0 nStop c else c := by
    unfold tickSafety toU32
    simp only [Bool.or_eq_true]
  refine ⟨hform, ?_, fun h => by omega⟩
  rw [hform]
  by_cases hg : c.timeout % 4294967296 < (n : Int) ∧ (c.in1 = true ∨ c.in2 = true)
  · rw [if_pos hg]
    refine ⟨fun _ => hg, fun _ heq => ?_⟩
    have h1 := congrArg Controller.in1 heq
    have h2 := congrArg Controller.in2 heq
    rw [setSpeed_in1] at h1
    rw [setSpeed_in2] at h2
    have hk : clampSpeed 0 = 0 := by decide
    rw [hk] at h1 h2
    rcases hg.2 with h | h
    · rw [h] at h1; exact absurd h1 (by decide)
    · rw [h] at h2; exact absurd h2 (by decide)
  · rw [if_neg hg]
    exact ⟨fun h => absurd rfl h, fun h => absurd h hg⟩

/-- C3, amended, at the deadline 500: the check fires at clock 501 and not at
clock 500. -/
theorem tickSafety_guard_witness :
    tickSafety 501 501 (setSpeed 100 500 0 (setup 0 0)) ≠ setSpeed 100 500 0 (setup 0 0) ∧
    tickSafety 500 500 (setSpeed 100 500 0 (setup 0 0)) = setSpeed 100 500 0 (setup 0 0) :=
  ⟨(tickSafety_guard (setSpeed 100 500 0 (setup 0 0)) 501 501).2.1.mpr (by decide),
   by
    have h := (tickSafety_guard (setSpeed 100 500 0 (setup 0 0)) 500 500).2.1
    by_contra hne
    exact absurd (h.mp hne) (by decide)⟩

/-! ## C4: direction exclusivity -/

theorem forwardState_reachable : Reachable forwardState :=
  Reachable.cycle (upButtonCycle 100 100) (setup 0 0) forwardState (Reachable.start 0 0)
    (by decide)

/-- C4, as stated, fails between the two direction writes of `setSpeed`: in the
reachable state `forwardState` (`IN2` high after a pass with the up button),
the down button makes `handleButtons` call `setSpeed(-255, 10)`, and after its
`digitalWrite(IN1, ...)` and before its `digitalWrite(IN2, ...)` both `IN1` and
`IN2` are high. -/
theorem both_outputs_high_between_writes :
    Reachable forwardState ∧
    (handleButtons (steady false true) 120 forwardState).2 = setSpeed (-255) 10 120 forwardState ∧
    (setSpeedToIN1 (-255) 10 120 forwardState).in1 = true ∧
    (setSpeedToIN1 (-255) 10 120 forwardState).in2 = true :=
  ⟨forwardState_reachable, by decide, by decide, by decide⟩

/-- C4, amended: let `c` agree on the motor side (speed, `IN1`, `IN2`, duty)
with a state reached after startup.  Then `IN1` and `IN2` are not both high in
`c` nor after a completed `setSpeed` call, and every state reachable by passes
of `loop` has them not both high; between the write of `IN1` and the write of
`IN2` inside `setSpeed` both are high exactly when the speed stored before the
call is positive and the new clamped speed is negative. -/
theorem direction_exclusive (c c0 : Controller) (s t : Int) (now : Nat)
    (h : ReachableBySteps c0) (hc : outputs c = outputs c0) :
    ¬ (c.in1 = true ∧ c.in2 = true) ∧
    ¬ ((setSpeed s t now c).in1 = true ∧ (setSpeed s t now c).in2 = true) ∧
    (((setSpeedToIN1 s t now c).in1 = true ∧ (setSpeedToIN1 s t now c).in2 = true) ↔
      (c.display_speed > 0 ∧ clampSpeed s < 0)) ∧
    (∀ c1, Reachable c1 → ¬ (c1.in1 = true ∧ c1.in2 = true)) := by
  have hexcl : ∀ c2, ReachableBySteps c2 → ¬ (c2.in1 = true ∧ c2.in2 = true) ∧
      (c2.in2 = true ↔ c2.display_speed > 0) := by
    intro c2 h2
    obtain ⟨s2, hs2⟩ := reachableBySteps_outputs c2 h2
    unfold outputs outputsFor at hs2
    simp only [Prod.mk.injEq] at hs2
    obtain ⟨h0, h1, h2', _⟩ := hs2
    rw [h0, h1, h2']
    simp only [decide_eq_true_eq]
    exact ⟨by omega, trivial⟩
  have hc' := hc
  unfold outputs at hc'
  simp only [Prod.mk.injEq] at hc'
  obtain ⟨hsp, hi1, hi2, _⟩ := hc'
  have hmid1 : (setSpeedToIN1 s t now c).in1 = decide (clampSpeed s < 0) := rfl
  have hmid2 : (setSpeedToIN1 s t now c).in2 = c.in2 := rfl
  refine ⟨?_, ?_, ?_, ?_⟩
  · rw [hi1, hi2]
    exact (hexcl c0 h).1
  · rw [setSpeed_in1, setSpeed_in2]
    simp only [decide_eq_true_eq]
    omega
  · rw [hmid1, hmid2, hi2, (hexcl c0 h).2, hsp]
    simp only [decide_eq_true_eq]
    exact ⟨fun hh => ⟨hh.2, hh.1⟩, fun hh => ⟨hh.2, hh.1⟩⟩
  · intro c1 h1
    exact (hexcl c1 (reachableBySteps_of_reachable c1 h1)).1

/-- C4, amended, at the reachable state `forwardState`: not both high before
and after `setSpeed(-255, 10)`, both high between its two direction writes. -/
theorem direction_exclusive_witness :
    ¬ (forwardState.in1 = true ∧ forwardState.in2 = true) ∧
    ¬ ((setSpeed (-255) 10 120 forwardState).in1 = true ∧
        (setSpeed (-255) 10 120 forwardState).in2 = true) ∧
    ((setSpeedToIN1 (-255) 10 120 forwardState).in1 = true ∧
      (setSpeedToIN1 (-255) 10 120 forwardState).in2 = true) :=
  ⟨(direction_exclusive forwardState forwardState (-255) 10 120
      (reachableBySteps_of_reachable _ forwardState_reachable) rfl).1,
   (direction_exclusive forwardState forwardState (-255) 10 120
      (reachableBySteps_of_reachable _ forwardState_reachable) rfl).2.1,
   (direction_exclusive forwardState forwardState (-255) 10 120
      (reachableBySteps_of_reachable _ forwardState_reachable) rfl).2.2.1.mpr
        ⟨by decide, by decide⟩⟩

/-! ## C5: the outputs written by `setSpeed` -/

/-- C5: with `k` the argument of `setSpeed` clamped to `[-255, 255]`, after the
call `IN1` is high iff `k < 0`, `IN2` is high iff `k > 0`, both are low iff
`k = 0`, and the PWM duty is 255 for `k = 0` and `|k|` otherwise, a value in
`1..255`. -/
theorem setSpeed_outputs (s t : Int) (now : Nat) (c : Controller) :
    clampSpeed s = max (-255) (min s 255) ∧
    ((setSpeed s t now c).in1 = true ↔ clampSpeed s < 0) ∧
    ((setSpeed s t now c).in2 = true ↔ clampSpeed s > 0) ∧
    ((setSpeed s t now c).in1 = false ∧ (setSpeed s t now c).in2 = false ↔ clampSpeed s = 0) ∧
    (setSpeed s t now c).duty = (if clampSpeed s = 0 then 255 else (clampSpeed s).natAbs) ∧
    1 ≤ (setSpeed s t now c).duty ∧ (setSpeed s t now c).duty ≤ 255 := by
  have hb := clampSpeed_bounds s
  rw [setSpeed_in1, setSpeed_in2, setSpeed_duty]
  refine ⟨clampSpeed_eq_max_min s, ?_, ?_, ?_, rfl, ?_, ?_⟩
  · simp only [decide_eq_true_eq]
  · simp only [decide_eq_true_eq]
  · simp only [decide_eq_false_iff_not]
    omega
  · split_ifs <;> omega
  · split_ifs <;> omega

/-- C5 at `setSpeed(-300, 500)`: reverse output high, forward low, duty 255. -/
theorem setSpeed_outputs_witness :
    (setSpeed (-300) 500 7 (setup 0 0)).in1 = true ∧
    (setSpeed (-300) 500 7 (setup 0 0)).in2 = false ∧
    (setSpeed (-300) 500 7 (setup 0 0)).duty = 255 :=
  ⟨(setSpeed_outputs (-300) 500 7 (setup 0 0)).2.1.mpr (by decide), by decide, by decide⟩

/-! ## C6: one confirmation per change of speed -/

/-- C6: a second `setSpeed(s, _)` right after a first sends nothing; the first
sends one confirmation `speed <clamped s>` to the remembered sender when the
clamped `s` differs from the speed stored before, and nothing when it does
not.  From startup, `setSpeed(100, 500)` twice sends exactly one datagram. -/
theorem setSpeed_dedup (c : Controller) (s t1 t2 : Int) (now1 now2 : Nat) :
    (setSpeed s t2 now2 (setSpeed s t1 now1 c)).sent = (setSpeed s t1 now1 c).sent ∧
    (clampSpeed s ≠ c.display_speed →
      (setSpeed s t1 now1 c).sent =
        c.sent ++ [⟨c.remoteIP, c.remotePort, speedLine (clampSpeed s)⟩]) ∧
    (clampSpeed s = c.display_speed → (setSpeed s t1 now1 c).sent = c.sent) ∧
    (∀ a b : Nat,
      (setSpeed 100 500 now2 (setSpeed 100 500 now1 (setup a b))).sent =
        [⟨0, 0, "speed 100\n".toList⟩]) := by
  refine ⟨?_, ?_, ?_, ?_⟩
  · rw [setSpeed_sent s t2 now2, setSpeed_display_speed, if_pos rfl]
  · intro h
    rw [setSpeed_sent, if_neg (fun e => h e.symm)]
    rfl
  · intro h
    rw [setSpeed_sent, if_pos h.symm]
  · intro a b
    obtain ⟨hs, hsent, hip, hport, _⟩ := setup_fields a b
    rw [setSpeed_sent 100 500 now2, setSpeed_display_speed, if_pos rfl, setSpeed_sent,
      hs, hsent, hip, hport]
    decide

/-- C6 from the moving state `negativeDeadlineState` (speed 100): `setSpeed(50, _)`
sends one confirmation, a repeated `setSpeed(50, _)` none. -/
theorem setSpeed_dedup_witness :
    (setSpeed 50 500 20 negativeDeadlineState).sent =
      negativeDeadlineState.sent ++ [⟨3232236289, 4000, speedLine 50⟩] ∧
    (setSpeed 50 500 30 (setSpeed 50 500 20 negativeDeadlineState)).sent =
      (setSpeed 50 500 20 negativeDeadlineState).sent :=
  ⟨(setSpeed_dedup negativeDeadlineState 50 500 500 20 30).2.1 (by decide),
   (setSpeed_dedup negativeDeadlineState 50 500 500 20 30).1⟩

/-! ## C7: reconfiguring the timeout -/

/-- C7, as stated, fails: after `setTimeout(2000)`, a `setSpeed(100, 2000)` at
clock 4294967000 stores the deadline 1704, not `now + t = 4294969000`; the
deadline the safety check reads is 1704 as well. -/
theorem setSpeed_deadline_wraps :
    (setSpeed 100 2000 4294967000 (setTimeout 2000 (setup 0 0))).timeout = 1704 ∧
    toU32 (setSpeed 100 2000 4294967000 (setTimeout 2000 (setup 0 0))).timeout = 1704 ∧
    (4294967000 : Int) + 2000 ≠ 1704 := by
  decide

/-- C7, amended: `setTimeout(ms)` stores `ms` in `timeout_ms` and leaves the
deadline, the speed, both direction outputs and the PWM duty as they were;
`setSpeed(s, t)` at clock `now` stores `now + t` wrapped to a 32-bit `int`,
which is `now + t` itself when that fits an `int`, and which the safety check
reads as `now + t` when `0 ≤ now + t < 2 ^ 32`; a `speed` command parsed after
the reconfiguration stores the deadline `now + ms`, wrapped the same way. -/
theorem setTimeout_frame (c : Controller) (ms s t v : Int) (now : Nat)
    (h0 : -2147483648 ≤ v) (h1 : v ≤ 2147483647) :
    (setTimeout ms c).timeout_ms = ms ∧
    (setTimeout ms c).timeout = c.timeout ∧
    (setTimeout ms c).display_speed = c.display_speed ∧
    (setTimeout ms c).in1 = c.in1 ∧ (setTimeout ms c).in2 = c.in2 ∧
    (setTimeout ms c).duty = c.duty ∧
    (setSpeed s t now c).timeout = toI32 ((now : Int) + t) ∧
    (-2147483648 ≤ (now : Int) + t ∧ (now : Int) + t < 2147483648 →
      (setSpeed s t now c).timeout = (now : Int) + t) ∧
    (0 ≤ (now : Int) + t ∧ (now : Int) + t < 4294967296 →
      toU32 (setSpeed s t now c).timeout = (now : Int) + t) ∧
    (parsePacket now { setTimeout ms c with buffer := speedLine v }).timeout =
      toI32 ((now : Int) + ms) := by
  refine ⟨rfl, rfl, rfl, rfl, rfl, rfl, ?_, ?_, ?_, ?_⟩
  · rw [setSpeed_timeout, toI32_toU32_add]
  · intro h
    rw [setSpeed_timeout, toI32_toU32_add, toI32_of_range _ h.1 h.2]
  · intro h
    rw [setSpeed_deadline]
    omega
  · rw [parsePacket_speedLine v now _ h0 h1 rfl, setSpeed_timeout, toI32_toU32_add]
    rfl

/-- C7 at `setTimeout(2000)` while moving, then `speed 100` at clock 20: the
deadline stays -995 and then becomes 2020. -/
theorem setTimeout_frame_witness :
    (setTimeout 2000 negativeDeadlineState).timeout = -995 ∧
    (parsePacket 20 { setTimeout 2000 negativeDeadlineState with buffer := speedLine 100 }).timeout
      = toI32 (((20 : Nat) : Int) + 2000) :=
  ⟨by decide,
   (setTimeout_frame negativeDeadlineState 2000 0 0 100 20 (by decide) (by decide)).2.2.2.2.2.2.2.2.2⟩

/-! ## C8: the `speed` command -/

/-- C8: for every `int` value `v`, parsing the payload `speed <v>` sets the
stored speed to `v` clamped to `[-255, 255]`; when that differs from the speed
stored before, exactly one reply `speed <clamped v>` is appended to the sent
datagrams, addressed to the remembered sender, and otherwise none.  Received
through `handlePacket` the reply goes to the datagram's own sender.  From
speed 0, `speed 150` gives 150 with reply `speed 150`, and `speed 300` gives
255 with reply `speed 255`. -/
theorem speed_command_round_trip (v : Int) (now : Nat) (c : Controller)
    (h0 : -2147483648 ≤ v) (h1 : v ≤ 2147483647) :
    (parsePacket now { c with buffer := speedLine v }).display_speed = clampSpeed v ∧
    (clampSpeed v ≠ c.display_speed →
      (parsePacket now { c with buffer := speedLine v }).sent =
        c.sent ++ [⟨c.remoteIP, c.remotePort, speedLine (clampSpeed v)⟩]) ∧
    (clampSpeed v = c.display_speed →
      (parsePacket now { c with buffer := speedLine v }).sent = c.sent) ∧
    (∀ ip port : Nat, ∃ r, handlePacket (some ⟨ip, port, speedLine v⟩) false now c = some r ∧
      r.received = true ∧ r.state.display_speed = clampSpeed v ∧
      r.state.sent = if clampSpeed v = c.display_speed then c.sent
        else c.sent ++ [⟨ip, port, speedLine (clampSpeed v)⟩]) ∧
    (c.display_speed = 0 →
      (parsePacket now { c with buffer := "speed 150\n".toList }).display_speed = 150 ∧
      (parsePacket now { c with buffer := "speed 150\n".toList }).sent =
        c.sent ++ [⟨c.remoteIP, c.remotePort, "speed 150\n".toList⟩] ∧
      (parsePacket now { c with buffer := "speed 300\n".toList }).display_speed = 255 ∧
      (parsePacket now { c with buffer := "speed 300\n".toList }).sent =
        c.sent ++ [⟨c.remoteIP, c.remotePort, "speed 255\n".toList⟩]) := by
  have hparse : ∀ (w : Int) (c0 : Controller), -2147483648 ≤ w → w ≤ 2147483647 →
      (parsePacket now { c0 with buffer := speedLine w }).display_speed = clampSpeed w ∧
      (parsePacket now { c0 with buffer := speedLine w }).sent =
        if clampSpeed w = c0.display_speed then c0.sent
        else c0.sent ++ [⟨c0.remoteIP, c0.remotePort, speedLine (clampSpeed w)⟩] := by
    intro w c0 hw0 hw1
    rw [parsePacket_speedLine w now _ hw0 hw1 rfl, setSpeed_display_speed, setSpeed_sent]
    refine ⟨rfl, ?_⟩
    by_cases he : clampSpeed w = c0.display_speed
    · rw [if_pos he, if_pos he.symm]
    · rw [if_neg he, if_neg (fun e => he e.symm)]
      rfl
  refine ⟨(hparse v c h0 h1).1, ?_, ?_, ?_, ?_⟩
  · intro hne
    rw [(hparse v c h0 h1).2, if_neg hne]
  · intro he
    rw [(hparse v c h0 h1).2, if_pos he]
  · intro ip port
    have hnul : ∀ ch ∈ speedLine v, ch ≠ '\x00' := by
      intro ch hch
      unfold speedLine at hch
      rw [List.append_assoc, List.mem_append] at hch
      rcases hch with h | h
      · revert ch
        decide
      · exact (fmtInt_no_blank v ch h).2
    have hlen : (speedLine v).length ≤ MAX_UDP_SIZE := by
      have h := fmtInt_length_le v 10 (by norm_num) (by omega)
      have h6 : "speed ".toList.length = 6 := by decide
      simp only [speedLine, List.length_append, List.length_singleton, MAX_UDP_SIZE, h6]
      omega
    have hne : speedLine v ≠ [] := by
      unfold speedLine
      simp
    have hp := hparse v { c with remoteIP := ip, remotePort := port } h0 h1
    exact ⟨_, handlePacket_text ⟨ip, port, speedLine v⟩ now c hne hlen hnul, rfl, hp.1, hp.2⟩
  · intro hz
    have e150 : "speed 150\n".toList = speedLine 150 := by decide
    have e300 : "speed 300\n".toList = speedLine 300 := by decide
    have e255 : "speed 255\n".toList = speedLine 255 := by decide
    have k150 : clampSpeed 150 = 150 := by decide
    have k300 : clampSpeed 300 = 255 := by decide
    have n150 : ¬ clampSpeed 150 = c.display_speed := by rw [hz]; decide
    have n300 : ¬ clampSpeed 300 = c.display_speed := by rw [hz]; decide
    have p150 := hparse 150 c (by decide) (by decide)
    have p300 := hparse 300 c (by decide) (by decide)
    refine ⟨?_, ?_, ?_, ?_⟩
    · rw [e150, p150.1, k150]
    · rw [e150, p150.2, if_neg n150, k150]
    · rw [e300, p300.1, k300]
    · rw [e300, p300.2, if_neg n300, k300, e255]

/-- C8 at `speed -300` received while the speed is 100: the speed becomes -255
and the reply is `speed -255`. -/
theorem speed_command_round_trip_witness :
    (parsePacket 20 { negativeDeadlineState with buffer := speedLine (-300) }).display_speed
      = clampSpeed (-300) ∧
    (parsePacket 20 { negativeDeadlineState with buffer := speedLine (-300) }).sent =
      negativeDeadlineState.sent ++ [⟨3232236289, 4000, speedLine (clampSpeed (-300))⟩] :=
  ⟨(speed_command_round_trip (-300) 20 negativeDeadlineState (by decide) (by decide)).1,
   (speed_command_round_trip (-300) 20 negativeDeadlineState (by decide) (by decide)).2.1
     (by decide)⟩

/-! ## C9: the `timeout` command -/

/-- C9: for every `int` value `v` and every state, also one whose `timeout_ms`
is `v` already, parsing the payload `timeout <v>` sets `timeout_ms` to `v` and
appends exactly one reply `timeout <v>` to the sent datagrams; received through
`handlePacket` the reply goes to the datagram's sender.  `timeout 800` gives
`timeout_ms = 800` and the reply `timeout 800`. -/
theorem timeout_command_round_trip (v : Int) (now : Nat) (c : Controller)
    (h0 : -2147483648 ≤ v) (h1 : v ≤ 2147483647) :
    (parsePacket now { c with buffer := timeoutLine v }).timeout_ms = v ∧
    (parsePacket now { c with buffer := timeoutLine v }).sent =
      c.sent ++ [⟨c.remoteIP, c.remotePort, timeoutLine v⟩] ∧
    (∀ ip port : Nat, ∃ r, handlePacket (some ⟨ip, port, timeoutLine v⟩) false now c = some r ∧
      r.received = true ∧ r.state.timeout_ms = v ∧
      r.state.sent = c.sent ++ [⟨ip, port, timeoutLine v⟩]) ∧
    (parsePacket now { c with buffer := "timeout 800\n".toList }).timeout_ms = 800 ∧
    (parsePacket now { c with buffer := "timeout 800\n".toList }).sent =
      c.sent ++ [⟨c.remoteIP, c.remotePort, "timeout 800\n".toList⟩] := by
  have hparse : ∀ (w : Int) (c0 : Controller), -2147483648 ≤ w → w ≤ 2147483647 →
      (parsePacket now { c0 with buffer := timeoutLine w }).timeout_ms = w ∧
      (parsePacket now { c0 with buffer := timeoutLine w }).sent =
        c0.sent ++ [⟨c0.remoteIP, c0.remotePort, timeoutLine w⟩] := by
    intro w c0 hw0 hw1
    rw [parsePacket_timeoutLine w now _ hw0 hw1 rfl, setTimeout_eq w _ hw0 hw1]
    exact ⟨rfl, rfl⟩
  refine ⟨(hparse v c h0 h1).1, (hparse v c h0 h1).2, ?_, ?_⟩
  · intro ip port
    have hnul : ∀ ch ∈ timeoutLine v, ch ≠ '\x00' := by
      intro ch hch
      unfold timeoutLine at hch
      rw [List.append_assoc, List.mem_append] at hch
      rcases hch with h | h
      · revert ch
        decide
      · exact (fmtInt_no_blank v ch h).2
    have hlen : (timeoutLine v).length ≤ MAX_UDP_SIZE := by
      have h := timeoutReply_length v h0 h1
      unfold timeoutLine
      unfold MAX_UDP_SIZE at h ⊢
      omega
    have hne : timeoutLine v ≠ [] := by
      unfold timeoutLine
      simp
    have hp := hparse v { c with remoteIP := ip, remotePort := port } h0 h1
    exact ⟨_, handlePacket_text ⟨ip, port, timeoutLine v⟩ now c hne hlen hnul, rfl, hp.1, hp.2⟩
  · have e800 : "timeout 800\n".toList = timeoutLine 800 := by decide
    rw [e800]
    exact hparse 800 c (by decide) (by decide)

/-- C9 at `timeout -1000` received in a state whose `timeout_ms` is -1000
already: one reply all the same. -/
theorem timeout_command_round_trip_witness :
    negativeDeadlineState.timeout_ms = -1000 ∧
    (parsePacket 20 { negativeDeadlineState with buffer := timeoutLine (-1000) }).timeout_ms
      = -1000 ∧
    (parsePacket 20 { negativeDeadlineState with buffer := timeoutLine (-1000) }).sent =
      negativeDeadlineState.sent ++ [⟨3232236289, 4000, timeoutLine (-1000)⟩] :=
  ⟨rfl,
   (timeout_command_round_trip (-1000) 20 negativeDeadlineState (by decide) (by decide)).1,
   (timeout_command_round_trip (-1000) 20 negativeDeadlineState (by decide) (by decide)).2.1⟩

/-! ## C10: malformed commands -/

/-- C10: parsing a payload with no token, with the verb `speed` or `timeout` and
no argument token, or with any other first token (such as `speed\n`, verb and
line feed in one token) sends nothing and leaves the speed, the configured
timeout, the deadline, both direction outputs, the PWM duty and the remembered
sender as they were. -/
theorem malformed_dropped (payload : List Char) (now : Nat) (c : Controller)
    (h : Malformed payload) :
    SameControl (parsePacket now { c with buffer := payload }) c ∧
    Malformed "speed\n".toList := by
  constructor
  · rcases h with ⟨sp, hsp⟩ | ⟨sp, verb, sp2, hsp, hverb, hsp2⟩ |
      ⟨sp, tok, tail, hsp, hne, hnb, htail, hs, ht⟩
    · unfold parsePacket
      simp only [strtok_blank _ hsp]
      exact ⟨rfl, rfl, rfl, rfl, rfl, rfl, rfl, rfl, rfl⟩
    · have hne : verb ≠ [] := by
        rcases hverb with hv | hv <;> rw [hv] <;> decide
      have hnb : ∀ ch ∈ verb, ch ≠ ' ' := by
        rcases hverb with hv | hv <;> rw [hv] <;> decide
      have htail : sp2 = [] ∨ ∃ r, sp2 = ' ' :: r := by
        cases sp2 with
        | nil => exact Or.inl rfl
        | cons a r => exact Or.inr ⟨r, by rw [hsp2 a (List.mem_cons_self a r)]⟩
      have hrest : strtok (sp2.drop 1) = none :=
        strtok_blank _ (fun ch hch => hsp2 ch (List.mem_of_mem_drop hch))
      obtain ⟨ht, _⟩ := strtok_token sp verb sp2 hsp hne hnb htail
      unfold parsePacket
      simp only [ht, hrest, Option.map_none']
      split_ifs <;> exact ⟨rfl, rfl, rfl, rfl, rfl, rfl, rfl, rfl, rfl⟩
    · obtain ⟨htk, _⟩ := strtok_token sp tok tail hsp hne hnb htail
      unfold parsePacket
      simp only [htk, hs, ht, if_false]
      exact ⟨rfl, rfl, rfl, rfl, rfl, rfl, rfl, rfl, rfl⟩
  · exact Malformed.unknownVerb [] "speed\n".toList [] (by simp) (by decide) (by decide)
      (Or.inl rfl) (by decide) (by decide)

/-- C10 at the payload `speed\n` received while the motor runs. -/
theorem malformed_dropped_witness :
    SameControl (parsePacket 20 { negativeDeadlineState with buffer := "speed\n".toList })
      negativeDeadlineState :=
  (malformed_dropped "speed\n".toList 20 negativeDeadlineState
    (Malformed.unknownVerb [] "speed\n".toList [] (by simp) (by decide) (by decide)
      (Or.inl rfl) (by decide) (by decide))).1

/-! ## C11: arguments that are not plain integers -/

/-- C11, as stated, fails twice.  The token `\t12\n` has no decimal digit after
its (absent) sign, yet `speed \t12\n` sets the speed to 12 and `timeout \t12\n`
sets `timeout_ms` to 12, because `atoi` skips the tab.  And the token
`99999999999abc\n` starts with the integer 99999999999, yet `timeout` applies
2147483647, the largest `int`. -/
theorem tab_before_digits_is_parsed :
    NoLeadingInteger "\t12\n".toList ∧
    (parsePacket 0 { setup 0 0 with buffer := "speed \t12\n".toList }).display_speed = 12 ∧
    (parsePacket 0 { setup 0 0 with buffer := "timeout \t12\n".toList }).timeout_ms = 12 ∧
    (parsePacket 0 { setup 0 0 with buffer := "timeout 99999999999abc\n".toList }).timeout_ms
      = 2147483647 := by
  refine ⟨?_, by decide, by decide, by decide⟩
  intro d hd
  have h : (dropSign "\t12\n".toList).head? = some '\t' := by decide
  rw [h] at hd
  simp only [Option.some.injEq] at hd
  rw [← hd]
  decide

/-- C11, amended: let the argument token `tok` have no decimal digit after its
leading white space (TAB, LF, VT, FF, CR) and optional sign.  Then `speed tok`
acts as `setSpeed(0, timeout_ms)`: the speed becomes 0 and `speed 0` is
confirmed iff the speed was not 0 before; `timeout tok` sets `timeout_ms` to 0.
A token made of an integer (optional white space, optional sign, decimal
digits, leading zeros allowed) followed by characters that do not start with a
digit is applied as that integer: `speed` stores it clamped to `[-255, 255]`,
`timeout` stores it saturated to the range of `int`, so unchanged when it is an
`int` value. -/
theorem permissive_argument (tok tail : List Char) (now : Nat) (c : Controller)
    (hne : tok ≠ []) (hnb : ∀ ch ∈ tok, ch ≠ ' ') (htail : tail = [] ∨ ∃ r, tail = ' ' :: r)
    (hno : NoLeadingInteger (tok.dropWhile isspace)) :
    SameControl (parsePacket now { c with buffer := "speed".toList ++ ' ' :: (tok ++ tail) })
      (setSpeed 0 c.timeout_ms now c) ∧
    (parsePacket now { c with buffer := "speed".toList ++ ' ' :: (tok ++ tail) }).display_speed
      = 0 ∧
    (parsePacket now { c with buffer := "speed".toList ++ ' ' :: (tok ++ tail) }).sent =
      (if c.display_speed = 0 then c.sent
       else c.sent ++ [⟨c.remoteIP, c.remotePort, "speed 0\n".toList⟩]) ∧
    (parsePacket now { c with buffer := "timeout".toList ++ ' ' :: (tok ++ tail) }).timeout_ms
      = 0 ∧
    (∀ (ws sgn ds rest : List Char), (∀ ch ∈ ws, isspace ch = true ∧ ch ≠ ' ') →
      (sgn = [] ∨ sgn = ['+'] ∨ sgn = ['-']) → ds ≠ [] → (∀ ch ∈ ds, isdigit ch = true) →
      (∀ ch ∈ rest, ch ≠ ' ') → (∀ d, rest.head? = some d → isdigit d = false) →
      (parsePacket now
        { c with buffer := "speed".toList ++ ' ' :: (ws ++ sgn ++ ds ++ rest ++ tail) }
        ).display_speed = clampSpeed (signedValue sgn ds) ∧
      (parsePacket now
        { c with buffer := "timeout".toList ++ ' ' :: (ws ++ sgn ++ ds ++ rest ++ tail) }
        ).timeout_ms = max (-2147483648) (min (signedValue sgn ds) 2147483647) ∧
      (-2147483648 ≤ signedValue sgn ds → signedValue sgn ds ≤ 2147483647 →
        (parsePacket now
          { c with buffer := "timeout".toList ++ ' ' :: (ws ++ sgn ++ ds ++ rest ++ tail) }
          ).timeout_ms = signedValue sgn ds)) := by
  have h0 : atoi tok = 0 := atoi_of_noLeadingInteger tok hno
  have hsp := parsePacket_speed_arg tok tail now
    { c with buffer := "speed".toList ++ ' ' :: (tok ++ tail) } hne hnb htail rfl
  have hto := parsePacket_timeout_arg tok tail now
    { c with buffer := "timeout".toList ++ ' ' :: (tok ++ tail) } hne hnb htail rfl
  rw [h0] at hsp hto
  have hk : clampSpeed 0 = 0 := by decide
  refine ⟨?_, ?_, ?_, ?_, ?_⟩
  · rw [hsp]
    exact setSpeed_buffer_irrelevant 0 c.timeout_ms now c _
  · rw [hsp, setSpeed_display_speed, hk]
  · rw [hsp, setSpeed_sent, hk]
    rfl
  · rw [hto]
    rfl
  · intro ws sgn ds rest hws hsgn hdne hdall hrb hrd
    have hane : ws ++ sgn ++ ds ++ rest ≠ [] := by simp [hdne]
    have hanb : ∀ ch ∈ ws ++ sgn ++ ds ++ rest, ch ≠ ' ' := by
      intro ch hch
      simp only [List.mem_append] at hch
      rcases hch with ((h | h) | h) | h
      · exact (hws ch h).2
      · rcases hsgn with e | e | e <;> rw [e] at h
        · exact absurd h (by simp)
        · simp only [List.mem_singleton] at h
          rw [h]
          decide
        · simp only [List.mem_singleton] at h
          rw [h]
          decide
      · exact isdigit_ne ch ' ' (hdall ch h) (by decide)
      · exact hrb ch h
    have hval := atoi_integer_text ws sgn ds rest (fun ch h => (hws ch h).1) hsgn hdne hdall hrd
    have hto' : (parsePacket now
        { c with buffer := "timeout".toList ++ ' ' :: (ws ++ sgn ++ ds ++ rest ++ tail) }
        ).timeout_ms = max (-2147483648) (min (signedValue sgn ds) 2147483647) := by
      rw [parsePacket_timeout_arg (ws ++ sgn ++ ds ++ rest) tail now _ hane hanb htail rfl, hval]
      rfl
    refine ⟨?_, hto', ?_⟩
    · rw [parsePacket_speed_arg (ws ++ sgn ++ ds ++ rest) tail now _ hane hanb htail rfl, hval,
        setSpeed_display_speed, clampSpeed_saturated]
    · intro hlo hhi
      rw [hto']
      omega

/-- C11, amended, at `speed abc\n` received while the speed is 100: the speed
becomes 0 and `speed 0` is confirmed; and at `timeout +12abc\n`: `timeout_ms`
becomes 12. -/
theorem permissive_argument_witness :
    (parsePacket 20
      { negativeDeadlineState with buffer := "speed".toList ++ ' ' :: ("abc\n".toList ++ []) }
      ).display_speed = 0 ∧
    (parsePacket 20
      { negativeDeadlineState with buffer := "speed".toList ++ ' ' :: ("abc\n".toList ++ []) }
      ).sent = negativeDeadlineState.sent ++ [⟨3232236289, 4000, "speed 0\n".toList⟩] ∧
    (parsePacket 20
      { negativeDeadlineState with
        buffer := "timeout".toList ++ ' ' :: ([] ++ ['+'] ++ "12".toList ++ "abc\n".toList ++ []) }
      ).timeout_ms = signedValue ['+'] "12".toList := by
  have hno : NoLeadingInteger ("abc\n".toList.dropWhile isspace) := by
    intro d hd
    have h : (dropSign ("abc\n".toList.dropWhile isspace)).head? = some 'a' := by decide
    rw [h] at hd
    simp only [Option.some.injEq] at hd
    rw [← hd]
    decide
  have h := permissive_argument "abc\n".toList [] 20 negativeDeadlineState (by decide)
    (by decide) (Or.inl rfl) hno
  refine ⟨h.2.1, h.2.2.1.trans (if_neg (by decide)), ?_⟩
  have hrd : ∀ d, "abc\n".toList.head? = some d → isdigit d = false := by
    intro d hd
    have h' : "abc\n".toList.head? = some 'a' := by decide
    rw [h'] at hd
    simp only [Option.some.injEq] at hd
    rw [← hd]
    decide
  exact (h.2.2.2.2 [] ['+'] "12".toList "abc\n".toList (by simp) (Or.inr (Or.inl rfl))
    (by decide) (by decide) (by decide) hrd).2.2 (by decide) (by decide)

/-! ## C12: buttons before datagrams -/

/-- C12, as stated, fails three ways.  With only the up button high and
`speed 200` pending, the speed after the pass is 0 when the safety check reads
a clock 11 ms after the button's `setSpeed` (deadline 110, check at 111), and
also when the whole pass runs at clock 4294967290, where the deadline
`now + 10` wraps to 4.  And when the up button reads high at the first test of
`handleButtons` but low at the second, `handleButtons` returns false: the
datagram is parsed, the speed is 200 and its sender is remembered. -/
theorem button_speed_lost_to_safety_check :
    (loop (upButtonCycle 100 111) (setup 0 0)).map Controller.display_speed = some 0 ∧
    (loop (upButtonCycle 4294967290 4294967290) (setup 0 0)).map Controller.display_speed
      = some 0 ∧
    (loop bouncingButtonCycle (setup 0 0)).map
      (fun c => (c.display_speed, c.remoteIP, c.remotePort)) = some (200, 167772161, 5000) := by
  decide

/-- C12, amended: in a pass of `loop` in which `handleButtons` sees a button,
that is, its first test reads both buttons high, or its second reads up high,
or its third reads down high (as whenever the buttons hold their levels and
one is high), the pending datagram is neither received nor parsed: the pass
does not restart, its result does not depend on the datagram or on `errno`,
and the remembered sender stays.  The speed after the pass is the button's
value (0 for both, 255 for up, -255 for down) unless the safety check of the
same pass fires, i.e. unless the clock it reads exceeds `(now + 10) mod 2 ^ 32`;
it never fires on the both-buttons stop, and when it fires the speed is 0. -/
theorem button_priority (i : CycleInput) (c : Controller)
    (hpress : (i.buttons.up1 && i.buttons.down1 || i.buttons.up2 || i.buttons.down2) = true) :
    ∃ c', loop i c = some c' ∧
      (∀ (p : Option Datagram) (e : Bool), loop { i with pending := p, errno5 := e } c = some c') ∧
      c'.remoteIP = c.remoteIP ∧ c'.remotePort = c.remotePort ∧
      ((i.buttons.up1 && i.buttons.down1) = true → c'.display_speed = 0) ∧
      (¬ (((i.nowCmd : Int) + 10) % 4294967296 < (i.nowCheck : Int)) →
        c'.display_speed =
          if (i.buttons.up1 && i.buttons.down1) = true then 0
          else if i.buttons.up2 = true then 255 else -255) ∧
      ((i.nowCheck : Int) ≤ (i.nowCmd : Int) + 10 → (i.nowCmd : Int) + 10 < 4294967296 →
        c'.display_speed =
          if (i.buttons.up1 && i.buttons.down1) = true then 0
          else if i.buttons.up2 = true then 255 else -255) ∧
      (((i.nowCmd : Int) + 10) % 4294967296 < (i.nowCheck : Int) → c'.display_speed = 0) := by
  have hhb := handleButtons_true i.buttons i.nowCmd c hpress
  have hflag : (handleButtons i.buttons i.nowCmd c).1 = true := by rw [hhb]
  have hloop := loop_of_button i c hflag
  rw [hhb] at hloop
  simp only [] at hloop
  generalize hk : (if (i.buttons.up1 && i.buttons.down1) = true then (0 : Int)
    else if i.buttons.up2 = true then 255 else -255) = k at hloop
  have hkv : k = 0 ∨ k = 255 ∨ k = -255 := by
    rw [← hk]
    split_ifs
    · exact Or.inl rfl
    · exact Or.inr (Or.inl rfl)
    · exact Or.inr (Or.inr rfl)
  have hclamp : clampSpeed k = k := by
    rcases hkv with h | h | h <;> rw [h] <;> decide
  have hboth : (i.buttons.up1 && i.buttons.down1) = true → k = 0 := by
    intro h
    rw [← hk, if_pos h]
  have hdl : toU32 (setSpeed k 10 i.nowCmd c).timeout = ((i.nowCmd : Int) + 10) % 4294967296 :=
    setSpeed_deadline k 10 i.nowCmd c
  have hrf := refresh_fields i.nowDraw i.nowRedraw
    (tickSafety i.nowCheck i.nowStop (setSpeed k 10 i.nowCmd c))
  have hrem := tickSafety_remote i.nowCheck i.nowStop (setSpeed k 10 i.nowCmd c)
  have hsr := setSpeed_remote k 10 i.nowCmd c
  have hspeed_quiet : ¬ (toU32 (setSpeed k 10 i.nowCmd c).timeout < (i.nowCheck : Int) ∧
      ((setSpeed k 10 i.nowCmd c).in1 || (setSpeed k 10 i.nowCmd c).in2) = true) →
      (tickSafety i.nowCheck i.nowStop (setSpeed k 10 i.nowCmd c)).display_speed = k := by
    intro hq
    unfold tickSafety
    rw [if_neg hq, setSpeed_display_speed, hclamp]
  have hspeed_fire : (tickSafety i.nowCheck i.nowStop (setSpeed k 10 i.nowCmd c)).display_speed = k ∨
      (tickSafety i.nowCheck i.nowStop (setSpeed k 10 i.nowCmd c)).display_speed = 0 := by
    rcases tickSafety_cases i.nowCheck i.nowStop (setSpeed k 10 i.nowCmd c) with ⟨_, h⟩ | ⟨_, h⟩
    · rw [h, setSpeed_display_speed, hclamp]
      exact Or.inl rfl
    · rw [h, setSpeed_display_speed]
      exact Or.inr (by decide)
  refine ⟨_, hloop, ?_, ?_, ?_, ?_, ?_, ?_, ?_⟩
  · intro p e
    have hflag' : (handleButtons ({ i with pending := p, errno5 := e } : CycleInput).buttons
        ({ i with pending := p, errno5 := e } : CycleInput).nowCmd c).1 = true := hflag
    have h := loop_of_button { i with pending := p, errno5 := e } c hflag'
    rw [h]
    simp only []
    rw [hhb]
    simp only [hk]
  · rw [hrf.2.2.1, hrem.1, hsr.1]
  · rw [hrf.2.2.2.1, hrem.2.1, hsr.2]
  · intro h
    rw [hrf.1]
    rw [hboth h] at hspeed_fire ⊢
    rcases hspeed_fire with h' | h' <;> exact h'
  · intro hq
    rw [hrf.1]
    apply hspeed_quiet
    rw [hdl]
    exact fun h => hq h.1
  · intro h1 h2
    rw [hrf.1]
    apply hspeed_quiet
    rw [hdl]
    intro h
    have := h.1
    omega
  · intro hf
    rw [hrf.1]
    rcases tickSafety_cases i.nowCheck i.nowStop (setSpeed k 10 i.nowCmd c) with ⟨hq, h⟩ | ⟨_, h⟩
    · rw [h, setSpeed_display_speed, hclamp]
      rw [hdl, setSpeed_in1, setSpeed_in2, hclamp] at hq
      by_contra hk0
      apply hq
      refine ⟨hf, ?_⟩
      simp only [Bool.or_eq_true, decide_eq_true_eq]
      omega
    · rw [h, setSpeed_display_speed]
      decide

/-- C12, amended, at the up button held high with `speed 200` pending and one
clock value 100 for the whole pass: the speed after the pass is 255. -/
theorem button_priority_witness :
    (loop (upButtonCycle 100 100) (setup 0 0)).map Controller.display_speed = some 255 := by
  obtain ⟨c', hl, _, _, _, _, _, hs, _⟩ :=
    button_priority (upButtonCycle 100 100) (setup 0 0) rfl
  rw [hl]
  exact congrArg some (hs (by decide) (by decide))

/-! ## C13: what the buttons do -/

/-- C13, as stated, fails for the deadline: with both buttons high at clock
4294967290 the deadline stored by `setSpeed(0, 10)` is 4, which is not
`now + 10 = 4294967300`. -/
theorem button_deadline_wraps :
    (handleButtons (steady true true) 4294967290 (setup 0 0)).2.timeout = 4 ∧
    toU32 (handleButtons (steady true true) 4294967290 (setup 0 0)).2.timeout = 4 ∧
    (4294967290 : Int) + 10 ≠ 4 := by
  decide

/-- C13, amended: with (steady) button levels `up` and `down`, `handleButtons`
performs `setSpeed(0, 10)` when both are high, `setSpeed(255, 10)` when only up
is, `setSpeed(-255, 10)` when only down is, and nothing otherwise; it returns
`up || down`.  When a button is high the speed stored is 0, 255 or -255
whatever it was before, and the deadline is `(now + 10) mod 2 ^ 32`, that is
`now + 10` whenever `now + 10 < 2 ^ 32`, whatever `timeout_ms` holds. -/
theorem button_interlock (up down : Bool) (now : Nat) (c : Controller) :
    handleButtons (steady up down) now c =
      (up || down,
       if (up && down) = true then setSpeed 0 10 now c
       else if up = true then setSpeed 255 10 now c
       else if down = true then setSpeed (-255) 10 now c
       else c) ∧
    ((up || down) = false → (handleButtons (steady up down) now c).2 = c) ∧
    ((up || down) = true →
      (handleButtons (steady up down) now c).2.display_speed =
        (if (up && down) = true then 0 else if up = true then 255 else -255) ∧
      toU32 (handleButtons (steady up down) now c).2.timeout
        = ((now : Int) + 10) % 4294967296 ∧
      ((now : Int) + 10 < 4294967296 →
        toU32 (handleButtons (steady up down) now c).2.timeout = (now : Int) + 10) ∧
      (∀ ms : Int, (handleButtons (steady up down) now { c with timeout_ms := ms }).2.timeout
        = (handleButtons (steady up down) now c).2.timeout)) := by
  refine ⟨handleButtons_steady up down now c, ?_, ?_⟩
  · intro h
    rw [handleButtons_steady]
    cases up <;> cases down <;> simp at h ⊢
  · intro h
    have hk : ∀ k : Int, k = 0 ∨ k = 255 ∨ k = -255 → clampSpeed k = k := by
      intro k hk
      rcases hk with h | h | h <;> rw [h] <;> decide
    have hkv : (if (up && down) = true then (0 : Int) else if up = true then 255 else -255) = 0 ∨
        (if (up && down) = true then (0 : Int) else if up = true then 255 else -255) = 255 ∨
        (if (up && down) = true then (0 : Int) else if up = true then 255 else -255) = -255 := by
      split_ifs
      · exact Or.inl rfl
      · exact Or.inr (Or.inl rfl)
      · exact Or.inr (Or.inr rfl)
    rw [handleButtons_pressed up down now c h]
    simp only []
    refine ⟨?_, setSpeed_deadline _ 10 now c, ?_, ?_⟩
    · rw [setSpeed_display_speed, hk _ hkv]
    · intro hlt
      rw [setSpeed_deadline]
      omega
    · intro ms
      rw [handleButtons_pressed up down now _ h]
      simp only []
      rw [setSpeed_timeout, setSpeed_timeout]

/-- C13, amended, at both buttons high while the speed is 100, at clock 20:
the speed becomes 0 and the deadline 30. -/
theorem button_interlock_witness :
    (handleButtons (steady true true) 20 negativeDeadlineState).2.display_speed = 0 ∧
    toU32 (handleButtons (steady true true) 20 negativeDeadlineState).2.timeout = 30 :=
  ⟨((button_interlock true true 20 negativeDeadlineState).2.2 rfl).1,
   ((button_interlock true true 20 negativeDeadlineState).2.2 rfl).2.2.1 (by decide)⟩

/-! ## C14: the terminating NUL of a received datagram -/

/-- C15, as stated, fails: the state `negativeDeadlineState`, reached from
startup by the datagrams `timeout -1000` and `speed 100`, has
`timeout_ms = -1000`. -/
theorem timeout_ms_negative_reachable :
    Reachable negativeDeadlineState ∧ negativeDeadlineState.timeout_ms = -1000 ∧
    negativeDeadlineState.timeout_ms < 0 :=
  ⟨negativeDeadlineState_reachable, by decide, by decide⟩

/-- C15, amended: in every reachable state `timeout_ms` is a value of `int`,
between `-2 ^ 31` and `2 ^ 31 - 1`; it is 500 after `setup`; a pass of `loop`
changes it only when it receives a datagram that is a `timeout` command with
an argument token, and then, as in every pass without a button that receives
such a datagram, the new value is what `atoi` gives that token, of either
sign. -/
theorem timeout_ms_is_int (c : Controller) (h : Reachable c) :
    -2147483648 ≤ c.timeout_ms ∧ c.timeout_ms ≤ 2147483647 ∧
    (∀ a b : Nat, (setup a b).timeout_ms = 500) ∧
    (∀ (i : CycleInput) (c' : Controller), loop i c = some c' →
      (c'.timeout_ms = c.timeout_ms ∨
        ∃ d a, i.pending = some d ∧ d.payload ≠ [] ∧
          timeoutArgument (receivedText d) = some a ∧ c'.timeout_ms = atoi a) ∧
      (∀ d a,
        (i.buttons.up1 && i.buttons.down1 || i.buttons.up2 || i.buttons.down2) = false →
        i.pending = some d → d.payload ≠ [] → timeoutArgument (receivedText d) = some a →
        c'.timeout_ms = atoi a)) := by
  have hrange : -2147483648 ≤ c.timeout_ms ∧ c.timeout_ms ≤ 2147483647 := by
    induction h with
    | start a b =>
      rw [(setup_fields a b).2.2.2.2]
      omega
    | cycle i c c' _ hstep ih =>
      rcases loop_timeout_ms i c c' hstep with h | ⟨a, h⟩
      · rw [h]
        exact ih
      · rw [h]
        exact atoi_range a
  exact ⟨hrange.1, hrange.2, fun a b => (setup_fields a b).2.2.2.2,
    fun i c' hstep => loop_timeout_source i c c' hstep⟩

/-- C15, amended, at the reachable state `negativeDeadlineState` and at the
pass from `setup` that receives `timeout -1000`: the token is `-1000\n` and
the new value is `atoi` of it. -/
theorem timeout_ms_is_int_witness :
    -2147483648 ≤ negativeDeadlineState.timeout_ms ∧
    negativeDeadlineState.timeout_ms ≤ 2147483647 ∧
    (∀ c', loop (packetCycle ⟨3232236289, 4000, "timeout -1000\n".toList⟩ 1) (setup 0 0) = some c' →
      c'.timeout_ms = atoi "-1000\n".toList) :=
  ⟨(timeout_ms_is_int negativeDeadlineState negativeDeadlineState_reachable).1,
   (timeout_ms_is_int negativeDeadlineState negativeDeadlineState_reachable).2.1,
   fun c' hc' =>
    ((timeout_ms_is_int (setup 0 0) (Reachable.start 0 0)).2.2.2
      (packetCycle ⟨3232236289, 4000, "timeout -1000\n".toList⟩ 1) c' hc').2
      ⟨3232236289, 4000, "timeout -1000\n".toList⟩ "-1000\n".toList
      (by decide) rfl (by decide) (by decide)⟩

/-! ## C16: the remembered sender -/

/-- C16, as stated, fails: in the state `negativeDeadlineState` the remembered
sender is `192.168.3.1:4000`; the datagram `bogus\n` from `10.0.0.1:5000` is
rejected (unknown verb, nothing sent, speed and timeouts as before), yet the
remembered sender is `10.0.0.1:5000` afterwards, and the confirmation of the
next forced stop goes there. -/
theorem rejected_datagram_changes_sender :
    Malformed "bogus\n".toList ∧
    (handlePacket (some ⟨167772161, 5000, "bogus\n".toList⟩) false 20
      negativeDeadlineState).map (fun r => (r.state.remoteIP, r.state.remotePort))
        = some (167772161, 5000) ∧
    (handlePacket (some ⟨167772161, 5000, "bogus\n".toList⟩) false 20
      negativeDeadlineState).map (fun r => (r.state.display_speed, r.state.sent))
        = some (100, negativeDeadlineState.sent) ∧
    (handlePacket (some ⟨167772161, 5000, "bogus\n".toList⟩) false 20
      negativeDeadlineState).map
        (fun r => (tickSafety 4294967000 4294967000 r.state).sent.getLast?)
        = some (some ⟨167772161, 5000, "speed 0\n".toList⟩) := by
  refine ⟨?_, by decide, by decide, by decide⟩
  exact Malformed.unknownVerb [] "bogus\n".toList [] (by simp) (by decide) (by decide)
    (Or.inl rfl) (by decide) (by decide)

/-- C16, amended: the remembered sender is the sender of the last datagram of
non-zero size that `handlePacket` received, whether `parsePacket` accepted it
or not; no pending datagram, or one of size zero, leaves the whole state
unchanged. -/
theorem sender_is_last_datagram (pending : Option Datagram) (now : Nat) (c : Controller)
    (r : PacketResult) (h : handlePacket pending false now c = some r) :
    (∀ d, pending = some d → d.payload ≠ [] →
      r.state.remoteIP = d.ip ∧ r.state.remotePort = d.port) ∧
    ((pending = none ∨ ∃ d, pending = some d ∧ d.payload = []) → r.state = c) :=
  ⟨(handlePacket_fields pending false now c r h).2.2, (handlePacket_fields pending false now c r h).2.1⟩

/-- C16, amended, at the rejected datagram `speed\n` from `10.0.0.1:5000`. -/
theorem sender_is_last_datagram_witness :
    ∃ r, handlePacket (some ⟨167772161, 5000, "speed\n".toList⟩) false 20 negativeDeadlineState
        = some r ∧ r.state.remoteIP = 167772161 ∧ r.state.remotePort = 5000 := by
  cases hr : handlePacket (some ⟨167772161, 5000, "speed\n".toList⟩) false 20
      negativeDeadlineState with
  | none => exact absurd hr (by decide)
  | some r =>
    exact ⟨r, rfl, (sender_is_last_datagram _ 20 negativeDeadlineState r hr).1 _ rfl (by decide)⟩

/-! ## C17: outputs and stored speed -/

/-- C17: in every state reached after startup by `setSpeed`, `setTimeout`,
`parsePacket`, `handleButtons`, safety-check steps or whole passes of `loop`,
`IN1` is high iff the stored speed is negative, `IN2` is high iff it is
positive, the PWM duty is 255 at speed 0 and the absolute speed otherwise, and
an output is high iff the stored speed is not 0. -/
theorem outputs_agree_with_speed (c : Controller) (h : ReachableBySteps c) :
    (c.in1 = true ↔ c.display_speed < 0) ∧ (c.in2 = true ↔ c.display_speed > 0) ∧
    c.duty = (if c.display_speed = 0 then 255 else c.display_speed.natAbs) ∧
    ((c.in1 = true ∨ c.in2 = true) ↔ c.display_speed ≠ 0) := by
  obtain ⟨s, hs⟩ := reachableBySteps_outputs c h
  unfold outputs outputsFor at hs
  simp only [Prod.mk.injEq] at hs
  obtain ⟨h0, h1, h2, h3⟩ := hs
  rw [h0, h1, h2, h3]
  simp only [decide_eq_true_eq]
  refine ⟨trivial, trivial, trivial, ?_⟩
  omega

/-- C17 at the reachable state `negativeDeadlineState`, speed 100. -/
theorem outputs_agree_with_speed_witness :
    (negativeDeadlineState.in2 = true ↔ negativeDeadlineState.display_speed > 0) ∧
    negativeDeadlineState.duty = 100 :=
  ⟨(outputs_agree_with_speed negativeDeadlineState
      (reachableBySteps_of_reachable _ negativeDeadlineState_reachable)).2.1,
   (outputs_agree_with_speed negativeDeadlineState
      (reachableBySteps_of_reachable _ negativeDeadlineState_reachable)).2.2.1⟩

/-! ## C18: the forced stop -/

/-- C18: when the safety check fires in a state reached after startup (its
guard holds: the clock `n` exceeds the deadline and an output is high), it
performs `setSpeed(0, 0)`, which appends exactly one confirmation `speed 0` to
the remembered sender, stores speed 0 and sets the deadline to the clock
`nStop` read by that call; a safety check run again on the result changes
nothing and sends nothing, whatever the clock. -/
theorem forced_stop_announced (c : Controller) (n nStop : Nat) (h : ReachableBySteps c)
    (hfire : toU32 c.timeout < (n : Int) ∧ (c.in1 || c.in2) = true)
    (hclock : nStop < 4294967296) :
    tickSafety n nStop c = setSpeed 0 0 nStop c ∧
    (tickSafety n nStop c).sent =
      c.sent ++ [⟨c.remoteIP, c.remotePort, "speed 0\n".toList⟩] ∧
    (tickSafety n nStop c).display_speed = 0 ∧
    toU32 (tickSafety n nStop c).timeout = (nStop : Int) ∧
    (∀ n2 nStop2 : Nat, tickSafety n2 nStop2 (tickSafety n nStop c) = tickSafety n nStop c) := by
  have hrun : tickSafety n nStop c = setSpeed 0 0 nStop c := by
    unfold tickSafety
    rw [if_pos hfire]
  have hne : c.display_speed ≠ 0 := (moving_iff_speed c h).mp hfire.2
  have hk : clampSpeed 0 = 0 := by decide
  refine ⟨hrun, ?_, ?_, ?_, ?_⟩
  · rw [hrun, setSpeed_sent, hk, if_neg hne]
    rfl
  · rw [hrun, setSpeed_display_speed, hk]
  · rw [hrun, setSpeed_deadline]
    omega
  · intro n2 nStop2
    rw [hrun]
    unfold tickSafety
    rw [if_neg]
    rw [setSpeed_in1, setSpeed_in2, hk]
    intro hcontra
    exact absurd hcontra.2 (by decide)

/-- C18 after `setSpeed(100, 500)` at clock 0 and a safety check at clock 501:
one `speed 0` goes out and a second check leaves the state alone. -/
theorem forced_stop_announced_witness :
    (tickSafety 501 501 (setSpeed 100 500 0 (setup 0 0))).sent =
      (setSpeed 100 500 0 (setup 0 0)).sent ++ [⟨0, 0, "speed 0\n".toList⟩] ∧
    tickSafety 900 900 (tickSafety 501 501 (setSpeed 100 500 0 (setup 0 0))) =
      tickSafety 501 501 (setSpeed 100 500 0 (setup 0 0)) :=
  ⟨(forced_stop_announced (setSpeed 100 500 0 (setup 0 0)) 501 501
      (ReachableBySteps.speed 100 500 0 _ (ReachableBySteps.start 0 0))
      (by decide) (by decide)).2.1,
   (forced_stop_announced (setSpeed 100 500 0 (setup 0 0)) 501 501
      (ReachableBySteps.speed 100 500 0 _ (ReachableBySteps.start 0 0))
      (by decide) (by decide)).2.2.2.2 900 900⟩

/-! ## C19: negative timeouts -/

/-- C19: `setSpeed(s, t)` at clock `now` stores `(now + t) mod 2 ^ 32` as an
`int`, and the safety check reads it back as the unsigned `(now + t) mod 2 ^ 32`.
For an `int` value `t` with `now + t < 0` that is `2 ^ 32 + now + t`, so for
`s ≠ 0` the safety check at any clock `n` below `2 ^ 32 + now + t` leaves the
motor running.  Such a `t` comes from the network: after `timeout <v>` the
command `speed <w>` at clock `now` runs `setSpeed(w, v)`, with the same effect
when `now + v < 0` and `w ≠ 0`. -/
theorem negative_timeout_disables_stop (s t : Int) (now n nStop : Nat) (c : Controller)
    (hs : s ≠ 0) (ht : -2147483648 ≤ t) (hneg : (now : Int) + t < 0)
    (hn : (n : Int) < 4294967296 + (now : Int) + t) :
    (setSpeed s t now c).timeout = toI32 (((now : Int) + t) % 4294967296) ∧
    toU32 (setSpeed s t now c).timeout = 4294967296 + (now : Int) + t ∧
    tickSafety n nStop (setSpeed s t now c) = setSpeed s t now c ∧
    (tickSafety n nStop (setSpeed s t now c)).display_speed ≠ 0 ∧
    (∀ (w : Int) (now0 : Nat), w ≠ 0 → -2147483648 ≤ w → w ≤ 2147483647 → t ≤ 2147483647 →
      (parsePacket now0 { c with buffer := timeoutLine t }).timeout_ms = t ∧
      tickSafety n nStop (parsePacket now
          { parsePacket now0 { c with buffer := timeoutLine t } with buffer := speedLine w }) =
        parsePacket now
          { parsePacket now0 { c with buffer := timeoutLine t } with buffer := speedLine w } ∧
      (parsePacket now
          { parsePacket now0 { c with buffer := timeoutLine t } with buffer := speedLine w }
        ).display_speed ≠ 0) := by
  have hquiet : ∀ (w : Int) (c0 : Controller), w ≠ 0 →
      tickSafety n nStop (setSpeed w t now c0) = setSpeed w t now c0 := by
    intro w c0 _
    unfold tickSafety
    rw [if_neg]
    rw [setSpeed_deadline]
    intro hcontra
    have := hcontra.1
    omega
  have hspeed : ∀ (w : Int) (c0 : Controller), w ≠ 0 →
      (setSpeed w t now c0).display_speed ≠ 0 := by
    intro w c0 hw
    rw [setSpeed_display_speed]
    exact clampSpeed_ne_zero w hw
  refine ⟨?_, ?_, hquiet s c hs, ?_, ?_⟩
  · rw [setSpeed_timeout]
    unfold toI32 toU32
    omega
  · rw [setSpeed_deadline]
    omega
  · rw [hquiet s c hs]
    exact hspeed s c hs
  · intro w now0 hw hw0 hw1 ht1
    have hms : (parsePacket now0 { c with buffer := timeoutLine t }).timeout_ms = t := by
      rw [parsePacket_timeoutLine t now0 _ ht ht1 rfl]
      rfl
    have hcmd := parsePacket_speedLine w now
      { parsePacket now0 { c with buffer := timeoutLine t } with buffer := speedLine w }
      hw0 hw1 rfl
    have hms2 : ({ parsePacket now0 { c with buffer := timeoutLine t } with
        buffer := speedLine w } : Controller).timeout_ms = t := hms
    rw [hms2] at hcmd
    rw [hcmd]
    exact ⟨hms, hquiet w _ hw, hspeed w _ hw⟩

/-- C19 at `setSpeed(100, -1000)` at clock 5 and a safety check at clock 10:
the stored deadline reads 4294966301 and the motor keeps running. -/
theorem negative_timeout_disables_stop_witness :
    toU32 (setSpeed 100 (-1000) 5 (setup 0 0)).timeout = 4294966301 ∧
    tickSafety 10 10 (setSpeed 100 (-1000) 5 (setup 0 0)) = setSpeed 100 (-1000) 5 (setup 0 0) :=
  ⟨(negative_timeout_disables_stop 100 (-1000) 5 10 10 (setup 0 0) (by decide) (by decide)
      (by decide) (by decide)).2.1,
   (negative_timeout_disables_stop 100 (-1000) 5 10 10 (setup 0 0) (by decide) (by decide)
      (by decide) (by decide)).2.2.1⟩

end LiftSystem
